import Mathlib

/-!
Shallow embedding of the two heuristic engines of the pi-poc repository:
`app/agents/goal_validator.py` (class `GoalValidatorAgent`) and
`app/agents/epic_generator.py` (class `EpicGeneratorAgent`).

Python strings are embedded as Lean `String` (a list of characters) and
Python ints as `ℤ`/`Nat`.  Python floats appear in two layers.  The first
reads every decimal literal as the exact rational it prints as and computes
with exact rational arithmetic; this idealisation is adequate for the
relational properties (issue lists, recommendation plumbing, list shapes),
which depend only on comparisons that float rounding does not flip on the
inputs they are instantiated at.  The numeric value of the per-goal score
is not insensitive to rounding, so a second layer (`fl` and the `*_fl`
definitions below) re-embeds the score arithmetic with faithful IEEE-754
binary64 semantics: every float is the rational it denotes exactly, and
every operation rounds its exact rational result to 53 significant bits,
to nearest, ties to even.  Character classes (`\s`, `\d`, `\w`,
`str.lower`) are modelled on their ASCII core, which is the alphabet the
program's own keyword tables and all inputs considered here use.  The
regular expressions of the source are small and concrete; each one is
compiled by hand into an executable matcher with the same semantics
(leftmost search, greedy/lazy repetition with the backtracking behaviour
the concrete pattern admits, `$` matching at end of string or before a
single trailing newline).  Wall-clock fields (`processed_at`,
`generated_at`) and the random numeric id suffixes (`EPIC-<rand>`,
`FEAT-<rand>`) are the only fields not carried: they are nondeterministic
I/O and no property here mentions them.
-/

/-! ## Character and string utilities -/

/-- ASCII whitespace, the core of Python's `\s` / `str.strip` class:
space, tab, newline, carriage return, vertical tab, form feed. -/
def isWs (c : Char) : Bool :=
  c == ' ' || c == '\t' || c == '\n' || c == '\r' || c == '\x0b' || c == '\x0c'

/-- ASCII digit, Python's `\d` core. -/
def isDigit (c : Char) : Bool :=
  '0' ≤ c && c ≤ '9'

/-- ASCII word character, Python's `\w` core. -/
def isWordChar (c : Char) : Bool :=
  c.isAlpha || isDigit c || c == '_'

/-- Python `str.lower()` on the ASCII range. -/
def lowerStr (s : String) : String :=
  ⟨s.data.map Char.toLower⟩

/-- Does `needle` occur at the very start of `hay` (case-sensitive)? -/
def startsLit : List Char → List Char → Bool
  | [], _ => true
  | _ :: _, [] => false
  | a :: as, b :: bs => a == b && startsLit as bs

/-- Substring test on character lists: does `needle` occur somewhere in `hay`?
This is Python's `needle in hay` for strings. -/
def hasSubL (needle : List Char) : List Char → Bool
  | [] => startsLit needle []
  | c :: cs => startsLit needle (c :: cs) || hasSubL needle cs

/-- Python's `needle in hay` on strings. -/
def strIn (needle hay : String) : Bool :=
  hasSubL needle.data hay.data

/-- Drop a case-insensitive literal from the front, returning the rest
(`None` if the literal is not there).  Used to match the fixed words of the
source's regexes under `re.IGNORECASE`. -/
def dropLitCI : List Char → List Char → Option (List Char)
  | [], rest => some rest
  | _ :: _, [] => none
  | a :: as, b :: bs =>
    if Char.toLower a == Char.toLower b then dropLitCI as bs else none

/-- Match one-or-more characters of class `p` greedily (`p+` where the
following regex atom is disjoint from `p`), returning the rest. -/
def dropClass1 (p : Char → Bool) : List Char → Option (List Char)
  | [] => none
  | c :: cs => if p c then some (cs.dropWhile p) else none

/-- Auxiliary: `dropWhile` never lengthens a list (termination measure). -/
theorem dropWhile_length_le {α : Type} (p : α → Bool) :
    ∀ l : List α, (l.dropWhile p).length ≤ l.length := by
  intro l
  induction l with
  | nil => simp [List.dropWhile]
  | cons c cs ih =>
    simp only [List.dropWhile]
    by_cases h : p c
    · simp [h]
      exact Nat.le_succ_of_le ih
    · simp [h]

/-- Strip leading whitespace and trailing whitespace from a character list:
Python's `str.strip()`. -/
def stripL (cs : List Char) : List Char :=
  (((cs.dropWhile isWs).reverse.dropWhile isWs)).reverse

/-- One right-fold step of whitespace collapsing: a whitespace character
contributes a single space unless the output already starts with the space
of the same run. -/
def collapseStep (c : Char) (acc : List Char) : List Char :=
  if isWs c then
    if acc.head? == some ' ' then acc else ' ' :: acc
  else c :: acc

/-- Replace every maximal run of whitespace by one space:
Python's `re.sub(r'\s+', ' ', s)`. -/
def collapseL (cs : List Char) : List Char :=
  cs.foldr collapseStep []

/-- Python `str.strip()` on strings. -/
def pyStrip (s : String) : String :=
  ⟨stripL s.data⟩

/-- The normalisation applied to every candidate goal in `_extract_goals`:
`re.sub(r'\s+', ' ', goal.strip())`. -/
def cleanGoal (s : String) : String :=
  ⟨collapseL (stripL s.data)⟩

/-- Count the maximal non-whitespace words; the flag records whether the
scan is currently inside a word. -/
def countWords : List Char → Bool → Nat
  | [], _ => 0
  | c :: cs, inWord =>
    if isWs c then countWords cs false
    else (if inWord then 0 else 1) + countWords cs true

/-- Python `len(s.split())`: the number of maximal non-whitespace words. -/
def wordCount (s : String) : Nat :=
  countWords s.data false

/-- Is there a suffix of the text satisfying `test`?  This is the scan that
`re.search` performs over every starting position. -/
def existsAt (test : List Char → Bool) : List Char → Bool
  | [] => test []
  | c :: cs => test (c :: cs) || existsAt test cs

/-! ## `GoalValidatorAgent`: SMART criteria keyword tables
(the `smart_criteria` dictionary of `goal_validator.py`). -/

def specific_action_keywords : List String :=
  ["implement", "develop", "create", "build", "establish", "achieve"]

def specific_anti_keywords : List String :=
  ["improve", "enhance", "better", "optimize", "increase"]

def measurable_keywords : List String :=
  ["%", "percent", "number", "count", "metric", "kpi", "score", "rating"]

def achievable_warning_keywords : List String :=
  ["revolutionary", "groundbreaking", "100%", "perfect", "eliminate all"]

def achievable_realistic_keywords : List String :=
  ["realistic", "feasible", "attainable", "possible"]

def relevant_keywords : List String :=
  ["business value", "revenue", "customer", "user", "efficiency", "cost"]

def relevant_contexts : List String :=
  ["business", "customer", "user experience", "performance", "security"]

def time_bound_keywords : List String :=
  ["by", "within", "deadline", "timeline", "end of", "complete by"]

/-! ## The regex matchers of `_check_measurable` and `_check_time_bound`

Each `re.search(pattern, text)` call is embedded as a decidable existence
test over the suffixes of the text, faithful to the concrete pattern. -/

/-- `re.search(r'\d+%', text)`: a digit directly followed by a percent sign. -/
def search_num_pct (cs : List Char) : Bool :=
  existsAt
    (fun r => match r with
      | a :: b :: _ => isDigit a && b == '%'
      | _ => false) cs

/-- `re.search(r'\d+\.\d+', text)`: digit, dot, digit. -/
def search_decimal (cs : List Char) : Bool :=
  existsAt
    (fun r => match r with
      | a :: b :: c :: _ => isDigit a && b == '.' && isDigit c
      | _ => false) cs

/-- `re.search(r'\$\d+', text)`: a dollar sign directly followed by a digit. -/
def search_dollar (cs : List Char) : Bool :=
  existsAt
    (fun r => match r with
      | a :: b :: _ => a == '$' && isDigit b
      | _ => false) cs

def duration_units : List String :=
  ["second", "minute", "hour", "day", "week"]

/-- `re.search(r'\d+\s*(seconds?|minutes?|hours?|days?|weeks?)', text)`:
a digit, optional whitespace, then a unit word (case-sensitive; the
optional plural `s?` cannot affect existence of a match). -/
def search_duration (cs : List Char) : Bool :=
  existsAt
    (fun r => match r with
      | a :: rest =>
        isDigit a &&
          duration_units.any (fun u => startsLit u.data (rest.dropWhile isWs))
      | _ => false) cs

/-- `re.search(r'by\s+\w+\s+\d{4}', text, re.IGNORECASE)`.  The character
classes are pairwise disjoint at every boundary, so greedy matching is
deterministic: literal, whitespace run, word run, whitespace run, then four
digits. -/
def search_by_year (cs : List Char) : Bool :=
  existsAt
    (fun r =>
      (((dropLitCI "by".data r).bind (dropClass1 isWs)).bind
          (dropClass1 isWordChar)).bind (dropClass1 isWs)
        |>.elim false
          (fun r4 => match r4 with
            | a :: b :: c :: d :: _ => isDigit a && isDigit b && isDigit c && isDigit d
            | _ => false)) cs

/-- `re.search(r'within\s+\d+\s+\w+', text, re.IGNORECASE)`. -/
def search_within (cs : List Char) : Bool :=
  existsAt
    (fun r =>
      (((dropLitCI "within".data r).bind (dropClass1 isWs)).bind
          (dropClass1 isDigit)).bind (dropClass1 isWs)
        |>.elim false
          (fun r4 => match r4 with
            | a :: _ => isWordChar a
            | _ => false)) cs

/-- `re.search(r'end\s+of\s+\w+', text, re.IGNORECASE)`. -/
def search_end_of (cs : List Char) : Bool :=
  existsAt
    (fun r =>
      ((((dropLitCI "end".data r).bind (dropClass1 isWs)).bind
          (dropLitCI "of".data)).bind (dropClass1 isWs))
        |>.elim false
          (fun r4 => match r4 with
            | a :: _ => isWordChar a
            | _ => false)) cs

/-! ## The five SMART sub-scores (`_check_specific` … `_check_time_bound`)

Each loop `for word in ws: if word in text: score += d` (or `score -= d`,
written here as adding a negative delta) is embedded as `kwFold`; the regex
loops as `patFold`; the final `min(1.0, max(0.0, score))` clamp is kept
verbatim. -/

/-- One keyword loop of a `_check_*` method: add `delta` for every keyword
occurring in the (already lower-cased) text. -/
def kwFold (text_lower : String) (ws : List String) (delta : ℚ) (score : ℚ) : ℚ :=
  ws.foldl (fun sc w => if strIn w text_lower then sc + delta else sc) score

/-- One pattern loop of a `_check_*` method: add `delta` for every regex
that finds a match in the raw goal text. -/
def patFold (text : List Char) (pats : List (List Char → Bool)) (delta : ℚ)
    (score : ℚ) : ℚ :=
  pats.foldl (fun sc pat => if pat text then sc + delta else sc) score

/-- `_check_specific`. -/
def check_specific (goal_text : String) : ℚ :=
  let text_lower := lowerStr goal_text
  let score := kwFold text_lower specific_action_keywords 0.2 0
  let score := kwFold text_lower specific_anti_keywords (-0.1) score
  let score := if 20 < wordCount goal_text then score + 0.2 else score
  min 1 (max 0 score)

/-- `_check_measurable`. -/
def check_measurable (goal_text : String) : ℚ :=
  let text_lower := lowerStr goal_text
  let score := kwFold text_lower measurable_keywords 0.2 0
  let score := patFold goal_text.data
    [search_num_pct, search_decimal, search_dollar, search_duration] 0.3 score
  let score :=
    if strIn "success criteria" text_lower || strIn "metrics" text_lower then
      score + 0.3
    else score
  min 1 (max 0 score)

/-- `_check_achievable` (the optimistic prior 0.7). -/
def check_achievable (goal_text : String) : ℚ :=
  let text_lower := lowerStr goal_text
  let score := kwFold text_lower achievable_warning_keywords (-0.2) 0.7
  let score := kwFold text_lower achievable_realistic_keywords 0.1 score
  min 1 (max 0 score)

/-- `_check_relevant`. -/
def check_relevant (goal_text : String) : ℚ :=
  let text_lower := lowerStr goal_text
  let score := kwFold text_lower relevant_keywords 0.2 0
  let score :=
    if strIn "business value" text_lower || strIn "impact" text_lower then
      score + 0.3
    else score
  let score := kwFold text_lower relevant_contexts 0.1 score
  min 1 (max 0 score)

/-- `_check_time_bound`. -/
def check_time_bound (goal_text : String) : ℚ :=
  let text_lower := lowerStr goal_text
  let score := kwFold text_lower time_bound_keywords 0.2 0
  let score := patFold goal_text.data
    [search_by_year, search_within, search_end_of] 0.4 score
  let score :=
    if strIn "pi" text_lower || strIn "program increment" text_lower then
      score + 0.3
    else score
  min 1 (max 0 score)

/-! ## Goal segmentation (`_extract_goals`)

The four patterns of `goal_patterns` all have the shape
`MARKER .*? (?=MARKER|$)` with `re.DOTALL | re.IGNORECASE`, where `MARKER`
is `GOAL\s+\d+:`, `OBJECTIVE\s+\d+:`, `Goal:` or `Objective:`.  `re.findall`
therefore returns, for each occurrence of the marker, the text from that
marker (inclusive) up to the next occurrence of the same marker, the end of
the string, or a single trailing newline (Python's `$`). -/

/-- Parse a numbered marker `WORD\s+\d+:` case-insensitively at the head of
the text, returning the rest after the colon. -/
def numMarker (word : List Char) (cs : List Char) : Option (List Char) :=
  (((dropLitCI word cs).bind (dropClass1 isWs)).bind (dropClass1 isDigit)).bind
    (fun r3 => match r3 with
      | ':' :: r4 => some r4
      | _ => none)

/-- Parse a plain marker literal (e.g. `Goal:`) case-insensitively at the
head of the text, returning the rest. -/
def litMarker (word : List Char) (cs : List Char) : Option (List Char) :=
  dropLitCI word cs

/-- The lookahead `(?=MARKER|$)`: the marker starts here, or we are at the
end of the string, or just before a single trailing newline. -/
def lookMarkerOrEnd (test : List Char → Bool) (rest : List Char) : Bool :=
  test rest || rest.isEmpty || rest == ['\n']

/-- Consume characters lazily (`.*?` under `re.DOTALL`) until the lookahead
succeeds; returns the consumed content and the remaining text.  The fuel is
the length of the input, which always suffices. -/
def lazyUntil (test : List Char → Bool) : Nat → List Char → (List Char × List Char)
  | _, [] => ([], [])
  | 0, rest => ([], rest)
  | fuel + 1, c :: cs =>
    if lookMarkerOrEnd test (c :: cs) then ([], c :: cs)
    else
      let p := lazyUntil test fuel cs
      (c :: p.1, p.2)

/-- All matches of `MARKER .*? (?=MARKER|$)` over the text, scanning left to
right and resuming after each match, exactly as `re.findall` does. -/
def findAllMarker (parse : List Char → Option (List Char)) :
    Nat → List Char → List (List Char)
  | _, [] => []
  | 0, _ => []
  | fuel + 1, c :: cs =>
    match parse (c :: cs) with
    | some rest =>
      let consumed := (c :: cs).take ((c :: cs).length - rest.length)
      let p := lazyUntil (fun r => (parse r).isSome) rest.length rest
      (consumed ++ p.1) :: findAllMarker parse fuel p.2
    | none => findAllMarker parse fuel cs

/-- `re.findall(pattern, text, re.DOTALL | re.IGNORECASE)` for one marker
family. -/
def findallFor (parse : List Char → Option (List Char)) (cs : List Char) :
    List (List Char) :=
  findAllMarker parse (cs.length + 1) cs

/-- The accumulated structured matches of all four `goal_patterns`, each
`.strip()`ped, in the order the source's loop produces them. -/
def structured_candidates (text : String) : List String :=
  ((findallFor (numMarker "goal".data) text.data
      ++ findallFor (numMarker "objective".data) text.data
      ++ findallFor (litMarker "goal:".data) text.data
      ++ findallFor (litMarker "objective:".data) text.data).map
    (fun m => stripL m)).map (fun l => (⟨l⟩ : String))

/-- One split separator of the fallback `re.split(r'\n\s*\n|\d+\.\s+', text)`
matched at the head of the text: alternative `\n\s*\n` first (a newline, then
greedy whitespace backtracked to end at the last newline of the run), then
`\d+\.\s+`.  Returns the rest after the separator.  First the second
alternative `\d+\.\s+` on its own: -/
def splitSepNum (cs : List Char) : Option (List Char) :=
  let d := cs.takeWhile isDigit
  if d.isEmpty then none
  else
    match cs.drop d.length with
    | '.' :: r2 =>
      let w := r2.takeWhile isWs
      if w.isEmpty then none else some (r2.drop w.length)
    | _ => none

/-- Both separator alternatives, `\n\s*\n` tried first. -/
def splitSepAt (cs : List Char) : Option (List Char) :=
  match cs with
  | '\n' :: rest =>
    let w := rest.takeWhile isWs
    if w.contains '\n' then
      some (rest.drop (w.length - w.reverse.indexOf '\n'))
    else
      splitSepNum cs
  | _ => splitSepNum cs

/-- `re.split` driver: scan left to right, cutting at every separator match. -/
def pySplitSep : Nat → List Char → List Char → List (List Char)
  | _, acc, [] => [acc.reverse]
  | 0, acc, rest => [acc.reverse ++ rest]
  | fuel + 1, acc, c :: cs =>
    match splitSepAt (c :: cs) with
    | some rest => acc.reverse :: pySplitSep fuel [] rest
    | none => pySplitSep fuel (c :: acc) cs

/-- The fallback candidates when no structured goal marker matched:
split on blank lines or numbered-list markers, keep stripped fragments
longer than 50 characters. -/
def fallback_candidates (text : String) : List String :=
  ((pySplitSep (text.data.length + 1) [] text.data).map
      (fun g => (⟨stripL g⟩ : String))).filter
    (fun g => 50 < g.length)

/-- `_extract_goals`: structured extraction, fallback split, then normalise
every candidate, keep those strictly longer than 20 characters, and cap the
result at the first 10. -/
def extract_goals (text : String) : List String :=
  let goals := structured_candidates text
  let goals := if goals.isEmpty then fallback_candidates text else goals
  (((goals.map cleanGoal).filter (fun g => 20 < g.length)).take 10)

/-! ## Title extraction (`_analyze_single_goal` / `_generate_improved_goal`)

`re.search(r'(?:GOAL\s+\d+:|Goal:)?\s*([^\n]+)', goal_text, re.IGNORECASE)`.
The search succeeds at position 0 whenever the text contains any
non-newline character (since `\s*` can also consume newlines and then
backtrack); it fails only when the text consists of newlines alone.  The
optional marker alternatives are tried in order, each kept only if the
continuation `\s*([^\n]+)` succeeds after it. -/

/-- Group 1 of `\s*([^\n]+)` matched at the head of `q`: skip the greedy
whitespace run; if it swallowed the whole text, backtrack, which leaves as
group 1 the last character not equal to a newline (if any). -/
def titleGroup (q : List Char) : Option (List Char) :=
  let r := q.dropWhile isWs
  if r.isEmpty then
    match (q.filter (fun c => c != '\n')).getLast? with
    | some c => some [c]
    | none => none
  else
    some (r.takeWhile (fun c => c != '\n'))

/-- The title search with the `Goal:` marker alternative or no marker at
all (the last two alternatives of the optional group). -/
def searchTitleColon (cs : List Char) : Option (List Char) :=
  match litMarker "goal:".data cs with
  | some q =>
    match titleGroup q with
    | some t => some t
    | none => titleGroup cs
  | none => titleGroup cs

/-- The full title search: numbered marker, plain `Goal:` marker, or no
marker, the first alternative whose continuation matches. -/
def searchTitle (cs : List Char) : Option (List Char) :=
  match numMarker "goal".data cs with
  | some q =>
    match titleGroup q with
    | some t => some t
    | none => searchTitleColon cs
  | none => searchTitleColon cs

/-- The goal title of `_analyze_single_goal`: the stripped group 1, or the
default `Goal {n}` when the search fails. -/
def extract_goal_title (goal_text : String) (goal_number : Nat) : String :=
  match searchTitle goal_text.data with
  | some t => ⟨stripL t⟩
  | none => "Goal " ++ toString goal_number

/-- The core objective of `_generate_improved_goal`: same regex, defaulting
to `Achieve objective`. -/
def core_objective_of (original_goal : String) : String :=
  match searchTitle original_goal.data with
  | some t => ⟨stripL t⟩
  | none => "Achieve objective"

/-! ## Per-goal SMART analysis (`_analyze_single_goal`) -/

/-- The boolean pass/fail verdicts, the `smart_assessment` dictionary. -/
structure SmartAssessment where
  specific : Bool
  measurable : Bool
  achievable : Bool
  relevant : Bool
  time_bound : Bool
deriving DecidableEq

def issue_specific : String := "Goal lacks specificity - too vague or general"
def issue_measurable : String := "Goal lacks measurable success criteria"
def issue_achievable : String := "Goal may be unrealistic or overly ambitious"
def issue_relevant : String := "Goal lacks clear business relevance or value"
def issue_time_bound : String := "Goal lacks clear timeline or deadline"

def rec_specific : String := "Be more specific about what exactly will be accomplished"
def rec_measurable : String := "Add specific metrics, numbers, or quantifiable outcomes"
def rec_achievable : String := "Ensure the goal is realistic given available resources and time"
def rec_relevant : String := "Clearly state the business value and impact"
def rec_time_bound : String := "Add specific deadlines and milestones"

/-- The `issues` list built by `_analyze_single_goal`: one fixed string per
failing dimension, in the fixed dimension order. -/
def issuesOf (a : SmartAssessment) : List String :=
  (if a.specific then [] else [issue_specific])
    ++ (if a.measurable then [] else [issue_measurable])
    ++ (if a.achievable then [] else [issue_achievable])
    ++ (if a.relevant then [] else [issue_relevant])
    ++ (if a.time_bound then [] else [issue_time_bound])

/-- The `recommendations` list built by `_analyze_single_goal`, parallel to
`issues`. -/
def recsOf (a : SmartAssessment) : List String :=
  (if a.specific then [] else [rec_specific])
    ++ (if a.measurable then [] else [rec_measurable])
    ++ (if a.achievable then [] else [rec_achievable])
    ++ (if a.relevant then [] else [rec_relevant])
    ++ (if a.time_bound then [] else [rec_time_bound])

/-- Python's `int()` applied to a (here rational-valued) float: truncation
towards zero. -/
def pyInt (q : ℚ) : ℤ :=
  if 0 ≤ q then ⌊q⌋ else ⌈q⌉

/-- The success-criteria template appended to every improved goal. -/
def success_criteria_template : String :=
  "\n\nSuccess Criteria:\n"
    ++ "- Define specific, quantifiable metrics\n"
    ++ "- Establish baseline and target values\n"
    ++ "- Identify key stakeholders and beneficiaries\n"
    ++ "- Set clear acceptance criteria\n"
    ++ "- Define timeline with key milestones"

/-- `_generate_improved_goal` (its `issues` parameter is unused in the
source as well). -/
def generate_improved_goal (original_goal : String) (a : SmartAssessment)
    (_issues : List String) : String :=
  let core_objective := core_objective_of original_goal
  let improved_parts :=
    (if a.specific then [core_objective]
     else ["Implement and deliver " ++ lowerStr core_objective])
      ++ (if a.measurable then []
          else ["with measurable success criteria including specific KPIs and performance targets"])
      ++ (if a.relevant then []
          else ["to deliver clear business value and improve operational efficiency"])
      ++ (if a.time_bound then []
          else ["by the end of the current Program Increment (PI)"])
  String.intercalate " " improved_parts ++ success_criteria_template

/-- The record returned by `_analyze_single_goal`. -/
structure GoalAnalysis where
  title : String
  original_text : String
  improved_version : String
  smart_assessment : SmartAssessment
  smart_score : ℤ
  issues : List String
  recommendations : List String
deriving DecidableEq

/-- `_analyze_single_goal`: score the five dimensions, record pass/fail
(`specific` passes above 0.4, the rest above 0.3), accumulate the fixed
issue/recommendation strings for failing dimensions, and truncate the
accumulated `score * 20` sum to an integer. -/
def analyze_single_goal (goal_text : String) (goal_number : Nat) : GoalAnalysis :=
  let title := extract_goal_title goal_text goal_number
  let specific_score := check_specific goal_text
  let measurable_score := check_measurable goal_text
  let achievable_score := check_achievable goal_text
  let relevant_score := check_relevant goal_text
  let time_bound_score := check_time_bound goal_text
  let a : SmartAssessment :=
    { specific := decide (0.4 < specific_score)
      measurable := decide (0.3 < measurable_score)
      achievable := decide (0.3 < achievable_score)
      relevant := decide (0.3 < relevant_score)
      time_bound := decide (0.3 < time_bound_score) }
  let smart_score : ℚ :=
    specific_score * 20 + measurable_score * 20 + achievable_score * 20
      + relevant_score * 20 + time_bound_score * 20
  { title := title
    original_text := goal_text
    improved_version := generate_improved_goal goal_text a (issuesOf a)
    smart_assessment := a
    smart_score := pyInt smart_score
    issues := issuesOf a
    recommendations := recsOf a }

/-- `_determine_quality_level`. -/
def determine_quality_level (smart_score : ℤ) : String :=
  if 90 ≤ smart_score then "Excellent"
  else if 75 ≤ smart_score then "Good"
  else if 60 ≤ smart_score then "Fair"
  else if 40 ≤ smart_score then "Poor"
  else "Very Poor"

/-! ## Overall recommendations (`_generate_overall_recommendations`) -/

/-- The issue-frequency key: `issue.split(' - ')[0] if ' - ' in issue else
issue` — the text before the first occurrence of `' - '`. -/
def takeBeforeSep (sep : List Char) : List Char → List Char
  | [] => []
  | c :: cs =>
    if startsLit sep (c :: cs) then []
    else c :: takeBeforeSep sep cs

/-- The key under which `_generate_overall_recommendations` counts an
issue. -/
def issueKey (issue : String) : String :=
  if strIn " - " issue then ⟨takeBeforeSep " - ".data issue.data⟩ else issue

/-- The fixed tail of four generic recommendations. -/
def general_recommendations : List String :=
  ["Consider breaking down large goals into smaller, manageable objectives",
   "Ensure goals align with overall PI objectives and business strategy",
   "Review and validate goals with key stakeholders",
   "Establish regular check-ins and progress reviews"]

def overall_rec_specific : String := "Focus on making goals more specific and actionable"
def overall_rec_measurable : String := "Add quantifiable metrics and KPIs to all goals"
def overall_rec_timeline : String := "Establish clear deadlines and milestones for all goals"
def overall_rec_relevance : String := "Clearly articulate business value and impact for each goal"

/-- `_generate_overall_recommendations`: count issues by key over all goals,
add a targeted recommendation whenever a key's count exceeds half the number
of goals, append the generic tail, and keep the first 6. -/
def generate_overall_recommendations (validated_goals : List GoalAnalysis) :
    List String :=
  let all_issues := validated_goals.flatMap (fun g => g.issues)
  let cnt : String → Nat := fun k =>
    (all_issues.filter (fun i => issueKey i == k)).length
  let n : ℚ := validated_goals.length
  let recommendations :=
    (if (cnt "Goal lacks specificity" : ℚ) > n * 0.5 then [overall_rec_specific] else [])
      ++ (if (cnt "Goal lacks measurable success criteria" : ℚ) > n * 0.5 then
            [overall_rec_measurable] else [])
      ++ (if (cnt "Goal lacks clear timeline" : ℚ) > n * 0.5 then
            [overall_rec_timeline] else [])
      ++ (if (cnt "Goal lacks clear business relevance" : ℚ) > n * 0.5 then
            [overall_rec_relevance] else [])
  (recommendations ++ general_recommendations).take 6

/-! ## The validation report (`validate_goals`) -/

structure ValidationReport where
  original_text : String
  goals_count : Nat
  goals : List GoalAnalysis
  smart_score : ℤ
  quality_level : String
  recommendations : List String
deriving DecidableEq

/-- `validate_goals`: segment the text, analyse each goal (numbered from 1),
average the per-goal scores (integer truncation; 0 when no goal was found),
and attach the quality label and overall recommendations. -/
def validate_goals (text_content : String) : ValidationReport :=
  let goals := extract_goals text_content
  let validated_goals := goals.enum.map (fun p => analyze_single_goal p.2 (p.1 + 1))
  let total_smart_score : ℤ := (validated_goals.map (fun g => g.smart_score)).sum
  let overall_smart_score : ℤ :=
    if goals.isEmpty then 0
    else pyInt ((total_smart_score : ℚ) / (goals.length : ℚ))
  { original_text := text_content
    goals_count := goals.length
    goals := validated_goals
    smart_score := overall_smart_score
    quality_level := determine_quality_level overall_smart_score
    recommendations := generate_overall_recommendations validated_goals }

/-! ## `EpicGeneratorAgent` (`epic_generator.py`)

The random id suffixes (`EPIC-<n>`, `FEAT-<n>`) are the one nondeterministic
ingredient of the source; they are not carried by the embedding and no
property below mentions them. -/

def frontend_keywords : List String :=
  ["UI", "UX", "React", "Angular", "Vue", "mobile", "web", "interface"]

def backend_keywords : List String :=
  ["API", "service", "database", "server", "microservice", "integration"]

def devops_keywords : List String :=
  ["deployment", "infrastructure", "CI/CD", "monitoring", "security"]

def qa_keywords : List String :=
  ["testing", "quality", "automation", "validation", "verification"]

def data_keywords : List String :=
  ["analytics", "reporting", "data", "metrics", "dashboard"]

def security_keywords : List String :=
  ["security", "authentication", "authorization", "compliance"]

/-- The `team_categories` dictionary, in its fixed declaration (= iteration)
order. -/
def team_categories : List (String × List String) :=
  [("Frontend", frontend_keywords),
   ("Backend", backend_keywords),
   ("DevOps", devops_keywords),
   ("QA", qa_keywords),
   ("Data", data_keywords),
   ("Security", security_keywords)]

/-- The `effort_guidelines` size-to-points table. -/
def effort_guidelines : List (String × Nat) :=
  [("XS", 1), ("S", 2), ("M", 3), ("L", 5), ("XL", 8), ("XXL", 13)]

/-- Dictionary lookup `self.effort_guidelines[size]['points']` (every size
used by the feature templates is present in the table). -/
def effort_points_of (size : String) : Nat :=
  ((effort_guidelines.find? (fun p => p.1 == size)).map (fun p => p.2)).getD 0

/-- `_suggest_team_assignment`: the first team in declaration order any of
whose keywords occurs (lower-cased) as a substring of the lower-cased
feature title; `Backend` when nothing matches. -/
def suggest_team_assignment (feature_title : String) : String :=
  let title_lower := lowerStr feature_title
  match team_categories.find?
      (fun p => p.2.any (fun keyword => strIn (lowerStr keyword) title_lower)) with
  | some p => p.1
  | none => "Backend"

/-- An input goal record: a Python dict whose fields are all optional and
read with `.get` defaults. -/
structure GoalRec where
  text : Option String
  original_text : Option String
  title : Option String
  priority : Option String
  category : Option String
deriving DecidableEq

/-- `goal.get('text', goal.get('original_text', ''))`. -/
def GoalRec.goalText (g : GoalRec) : String :=
  g.text.getD (g.original_text.getD "")

structure Feature where
  title : String
  description : String
  acceptance_criteria : List String
  priority : String
  effort_size : String
  effort_points : Nat
  assigned_team : String
  status : String
deriving DecidableEq

structure Epic where
  title : String
  description : String
  priority : String
  category : String
  acceptance_criteria : List String
  original_goal : String
  status : String
  features : List Feature
  feature_count : Nat
  total_effort : Nat
deriving DecidableEq

/-- A feature template of `_get_feature_templates` (the function ignores its
`goal_text` and `category` arguments and returns this fixed list). -/
structure FeatureTemplate where
  title : String
  description : String
  acceptance_criteria : List String
  effort_size : String

/-- `_get_feature_templates`. -/
def feature_templates : List FeatureTemplate :=
  [{ title := "Requirements Analysis and Design",
     description := "Analyze requirements and create technical design",
     acceptance_criteria := ["Requirements documented", "Design approved"],
     effort_size := "M" },
   { title := "Core Implementation",
     description := "Implement core functionality",
     acceptance_criteria := ["Core features working", "Unit tests passing"],
     effort_size := "L" },
   { title := "User Interface Development",
     description := "Create user interface components",
     acceptance_criteria := ["UI components created", "Responsive design"],
     effort_size := "M" },
   { title := "Integration and Testing",
     description := "Integrate components and perform testing",
     acceptance_criteria := ["Integration complete", "All tests passing"],
     effort_size := "M" },
   { title := "Documentation and Deployment",
     description := "Create documentation and deploy to production",
     acceptance_criteria := ["Documentation complete", "Successfully deployed"],
     effort_size := "S" }]

/-- Group 2 (`([^.]+)`, stripped later) after an action verb and `\s+`,
matching Python's greedy/backtracking behaviour: the whitespace run must be
followed by a character that is not a dot, or — when the run ends the
sentence — the last whitespace character itself is taken. -/
def objAfterVerb (rest : List Char) : Option (List Char) :=
  match rest with
  | c :: cs =>
    if isWs c then
      let w := c :: cs.takeWhile isWs
      let tail := (c :: cs).drop w.length
      match tail with
      | [] => if 2 ≤ w.length then some [w.getLast (by simp [w])] else none
      | d :: _ =>
        if d == '.' then
          if 2 ≤ w.length then some [w.getLast (by simp [w])] else none
        else some (tail.takeWhile (fun e => e != '.'))
    else none
  | [] => none

def epic_action_verbs_1 : List String :=
  ["implement", "develop", "create", "build", "establish", "design"]

def epic_action_verbs_2 : List String :=
  ["improve", "enhance", "optimize"]

/-- Python's `str.title()` restricted to a single word: first character
upper-cased, the rest lower-cased. -/
def pyTitleWord (cs : List Char) : List Char :=
  match cs with
  | [] => []
  | c :: rest => c.toUpper :: rest.map Char.toLower

/-- Search one action pattern `(v1|...|vk)\s+([^.]+)` case-insensitively at
every position; on the first matching position, return the matched verb text
(as it appears in the goal) and group 2. -/
def searchActionAux (verbs : List String) : Nat → List Char → Option (List Char × List Char)
  | _, [] => none
  | 0, _ => none
  | fuel + 1, c :: cs =>
    match verbs.findSome? (fun v =>
        match dropLitCI v.data (c :: cs) with
        | some rest =>
          match objAfterVerb rest with
          | some obj => some ((c :: cs).take v.length, obj)
          | none => none
        | none => none) with
    | some r => some r
    | none => searchActionAux verbs fuel cs

/-- `re.search` of one action pattern over the whole goal text. -/
def searchAction (verbs : List String) (cs : List Char) : Option (List Char × List Char) :=
  searchActionAux verbs (cs.length + 1) cs

/-- `_extract_epic_title`. -/
def extract_epic_title (goal_text : String) (goal_title : String) : String :=
  if goal_title != "" && goal_title != "Untitled Goal" then
    ⟨goal_title.data.take 60⟩
  else
    match searchAction epic_action_verbs_1 goal_text.data with
    | some p => ⟨pyTitleWord p.1⟩ ++ " " ++ ⟨(stripL p.2).take 50⟩
    | none =>
      match searchAction epic_action_verbs_2 goal_text.data with
      | some p => ⟨pyTitleWord p.1⟩ ++ " " ++ ⟨(stripL p.2).take 50⟩
      | none => "Epic: Business Objective Implementation"

/-- The fixed epic acceptance criteria. -/
def epic_acceptance_criteria : List String :=
  ["All features are implemented and tested",
   "Business requirements are met",
   "Performance targets are achieved"]

/-- `_generate_epic_from_goal` (without the random id; the `features`,
`feature_count` and `total_effort` fields are filled in by the caller, as in
the source). -/
def generate_epic_from_goal (goal : GoalRec) : Epic :=
  let goal_text := goal.goalText
  let goal_title := goal.title.getD "Untitled Goal"
  let epic_title := extract_epic_title goal_text goal_title
  { title := epic_title
    description :=
      if 200 < goal_text.length then (⟨goal_text.data.take 200⟩ : String) ++ "..."
      else goal_text
    priority := goal.priority.getD "Medium"
    category := goal.category.getD "Business"
    acceptance_criteria := epic_acceptance_criteria
    original_goal := goal_text
    status := "To Do"
    features := []
    feature_count := 0
    total_effort := 0 }

/-- `_generate_features_for_epic`: instantiate the first five templates
(i.e. all of them), inheriting the epic's priority. -/
def generate_features_for_epic (epic : Epic) (_goal : GoalRec) : List Feature :=
  (feature_templates.take 5).map (fun template =>
    { title := template.title
      description := template.description
      acceptance_criteria := template.acceptance_criteria
      priority := epic.priority
      effort_size := template.effort_size
      effort_points := effort_points_of template.effort_size
      assigned_team := suggest_team_assignment template.title
      status := "To Do" })

/-- One step of `_assign_teams_to_features`: append the feature title under
its team key, creating the key at the end on first sight (Python dict
insertion order). -/
def addAssign : List (String × List String) → String → String → List (String × List String)
  | [], team, title => [(team, [title])]
  | (k, v) :: rest, team, title =>
    if k = team then (k, v ++ [title]) :: rest
    else (k, v) :: addAssign rest team title

/-- `_assign_teams_to_features`. -/
def assign_teams_to_features (features : List Feature) : List (String × List String) :=
  features.foldl (fun acc f => addAssign acc f.assigned_team f.title) []

structure GenerationSummary where
  total_epics : Nat
  total_features : Nat
  total_effort_points : Nat
  estimated_weeks : Nat
  teams_involved : Nat
deriving DecidableEq

structure GenerationResult where
  epics : List Epic
  features : List Feature
  team_assignments : List (String × List String)
  summary : GenerationSummary
deriving DecidableEq

/-- The loop body of `generate_epics_and_features` for one goal: build the
epic, generate its features, and fill in the rollup fields. -/
def build_epic (goal : GoalRec) : Epic :=
  let epic := generate_epic_from_goal goal
  let features := generate_features_for_epic epic goal
  { epic with
      features := features
      feature_count := features.length
      total_effort := (features.map (fun f => f.effort_points)).sum }

/-- `generate_epics_and_features`: one epic per goal in input order, five
template features per epic, rollups and team assignments recomputed from the
generated features. -/
def generate_epics_and_features (goals : List GoalRec) : GenerationResult :=
  let generated_epics := goals.map build_epic
  let all_features := generated_epics.flatMap (fun e => e.features)
  let team_assignments := assign_teams_to_features all_features
  let total_effort := (generated_epics.map (fun e => e.total_effort)).sum
  { epics := generated_epics
    features := all_features
    team_assignments := team_assignments
    summary :=
      { total_epics := generated_epics.length
        total_features := all_features.length
        total_effort_points := total_effort
        estimated_weeks := max 1 (total_effort / 20)
        teams_involved := team_assignments.length } }

/-! ## Lemmas about the whitespace normalisation

`cleanGoal` (strip, then collapse whitespace runs) is idempotent; its output
is in normal form: no leading or trailing whitespace, every whitespace
character a single space. -/

theorem dropWhile_head_false {α : Type} (p : α → Bool) :
    ∀ (l : List α) (c : α) (cs : List α), l.dropWhile p = c :: cs → p c = false := by
  intro l
  induction l with
  | nil => intro c cs h; simp [List.dropWhile] at h
  | cons a as ih =>
    intro c cs h
    by_cases ha : p a
    · rw [List.dropWhile_cons_of_pos ha] at h
      exact ih c cs h
    · rw [List.dropWhile_cons_of_neg ha] at h
      cases h
      exact Bool.eq_false_iff.mpr ha

theorem dropWhile_cons_false {α : Type} (p : α → Bool) (c : α) (cs : List α)
    (h : p c = false) : (c :: cs).dropWhile p = c :: cs := by
  apply List.dropWhile_cons_of_neg
  simp [h]

/-- A character is acceptable at the head of a normal-form list: either it
is not whitespace, or it is a single space not followed by whitespace. -/
def okAt (c : Char) (rest : List Char) : Bool :=
  !isWs c ||
    (c == ' ' &&
      (match rest with
       | [] => true
       | d :: _ => !isWs d))

/-- Normal form: every position is acceptable. -/
def noRunWs : List Char → Bool
  | [] => true
  | c :: rest => okAt c rest && noRunWs rest

theorem collapseL_nil : collapseL [] = [] := rfl

theorem collapseL_cons (c : Char) (cs : List Char) :
    collapseL (c :: cs) = collapseStep c (collapseL cs) := rfl

theorem collapseL_cons_not (c : Char) (cs : List Char) (h : isWs c = false) :
    collapseL (c :: cs) = c :: collapseL cs := by
  rw [collapseL_cons, collapseStep, h]
  simp

/-- On a whitespace head the fold behaves like skipping the whole run. -/
theorem collapseL_cons_ws (c : Char) (cs : List Char) (h : isWs c = true) :
    collapseL (c :: cs) = ' ' :: collapseL (cs.dropWhile isWs) := by
  rw [collapseL_cons]
  induction cs generalizing c with
  | nil => simp [collapseL_nil, collapseStep, h]
  | cons d ds ih =>
    by_cases hd : isWs d
    · rw [collapseL_cons, ih d hd, List.dropWhile_cons_of_pos hd]
      simp [collapseStep, h]
    · have hd' : isWs d = false := Bool.eq_false_iff.mpr hd
      have hdsp : d ≠ ' ' := by
        intro he
        rw [he] at hd'
        simp [isWs] at hd'
      have hstep : collapseStep d (collapseL ds) = d :: collapseL ds := by
        rw [collapseStep, hd']
        simp
      rw [collapseL_cons d ds, hstep,
        List.dropWhile_cons_of_neg (by simp [hd']), collapseL_cons_not d ds hd']
      simp [collapseStep, h, hdsp]

/-- A recursion principle following the shape of whitespace collapsing:
the whitespace case steps over the whole run. -/
theorem collapse_strong {P : List Char → Prop} (cs : List Char)
    (h0 : P [])
    (hws : ∀ c cs, isWs c = true → P (cs.dropWhile isWs) → P (c :: cs))
    (hnot : ∀ c cs, isWs c = false → P cs → P (c :: cs)) : P cs := by
  have key : ∀ n (cs : List Char), cs.length ≤ n → P cs := by
    intro n
    induction n with
    | zero =>
      intro cs hlen
      cases cs with
      | nil => exact h0
      | cons c cs' => simp at hlen
    | succ n ih =>
      intro cs hlen
      cases cs with
      | nil => exact h0
      | cons c cs' =>
        by_cases hc : isWs c
        · exact hws c cs' hc
            (ih _ (le_trans (dropWhile_length_le _ _) (Nat.le_of_succ_le_succ hlen)))
        · exact hnot c cs' (Bool.eq_false_iff.mpr hc)
            (ih _ (Nat.le_of_succ_le_succ hlen))
  exact key cs.length cs (le_refl _)

theorem collapseL_ne_nil (c : Char) (cs : List Char) : collapseL (c :: cs) ≠ [] := by
  by_cases h : isWs c
  · rw [collapseL_cons_ws c cs h]
    simp
  · rw [collapseL_cons_not c cs (Bool.eq_false_iff.mpr h)]
    simp

/-- The head of a collapsed list is not whitespace when the input's head is
not whitespace. -/
theorem collapseL_head_keeps (c : Char) (cs : List Char) (h : isWs c = false) :
    collapseL (c :: cs) = c :: collapseL cs :=
  collapseL_cons_not c cs h

/-- Collapsing always yields a normal-form list. -/
theorem collapseL_noRun : ∀ cs : List Char, noRunWs (collapseL cs) = true := by
  intro cs
  induction cs using collapse_strong with
  | h0 => simp [collapseL_nil, noRunWs]
  | hws c cs h ih =>
    rw [collapseL_cons_ws c cs h]
    have hok : okAt ' ' (collapseL (cs.dropWhile isWs)) = true := by
      cases hY : cs.dropWhile isWs with
      | nil => simp [okAt, hY, collapseL_nil]
      | cons d ds =>
        have hd : isWs d = false := dropWhile_head_false isWs cs d ds hY
        rw [collapseL_cons_not d ds hd]
        simp [okAt, hd]
    simp [noRunWs, hok, ih]
  | hnot c cs h ih =>
    rw [collapseL_cons_not c cs h]
    simp [noRunWs, okAt, h, ih]

/-- Collapsing is the identity on normal-form lists. -/
theorem collapseL_fix : ∀ cs : List Char, noRunWs cs = true → collapseL cs = cs := by
  intro cs
  induction cs using collapse_strong with
  | h0 => intro _; exact collapseL_nil
  | hws c cs h ih =>
    intro hn
    simp [noRunWs] at hn
    have hok := hn.1
    have htail := hn.2
    simp [okAt, h] at hok
    have hc : c = ' ' := hok.1
    have hdrop : cs.dropWhile isWs = cs := by
      cases cs with
      | nil => simp
      | cons d ds =>
        have hd : isWs d = false := by
          have := hok.2
          simpa using this
        exact dropWhile_cons_false isWs d ds hd
    have ihcs : collapseL cs = cs := by
      have := ih (by rw [hdrop]; exact htail)
      rwa [hdrop] at this
    rw [collapseL_cons_ws c cs h, hdrop, ihcs, hc]
  | hnot c cs h ih =>
    intro hn
    simp [noRunWs] at hn
    rw [collapseL_cons_not c cs h]
    rw [ih hn.2]

theorem getLast?_dropWhile_of_ne_nil {α : Type} (p : α → Bool) (l : List α)
    (h : l.dropWhile p ≠ []) : (l.dropWhile p).getLast? = l.getLast? := by
  conv_rhs => rw [← List.takeWhile_append_dropWhile p l]
  exact (List.getLast?_append_of_ne_nil (l.takeWhile p) h).symm

theorem getLast?_cons_of_ne_nil {α : Type} (c : α) (l : List α) (h : l ≠ []) :
    (c :: l).getLast? = l.getLast? := by
  cases l with
  | nil => exact absurd rfl h
  | cons d ds => exact List.getLast?_cons_cons

/-- Collapsing preserves a non-whitespace last character. -/
theorem collapseL_getLast_not_ws :
    ∀ cs : List Char, (∀ c, cs.getLast? = some c → isWs c = false) →
      ∀ d, (collapseL cs).getLast? = some d → isWs d = false := by
  intro cs
  induction cs using collapse_strong with
  | h0 =>
    intro _ d hd
    rw [collapseL_nil] at hd
    simp at hd
  | hws c cs h ih =>
    intro hlast d hd
    rw [collapseL_cons_ws c cs h] at hd
    cases hY : cs.dropWhile isWs with
    | nil =>
      have hall : ∀ a ∈ cs, isWs a = true := by
        rw [← List.dropWhile_eq_nil_iff]
        exact hY
      cases cs with
      | nil =>
        have := hlast c (by simp)
        rw [h] at this
        cases this
      | cons e es =>
        obtain ⟨a, ha⟩ : ∃ a, (e :: es).getLast? = some a := by
          cases hg : (e :: es).getLast? with
          | none => simp at hg
          | some a => exact ⟨a, rfl⟩
        have hmem : a ∈ e :: es := List.mem_of_mem_getLast? ha
        have haw : isWs a = true := hall a hmem
        have : isWs a = false := by
          apply hlast
          rw [getLast?_cons_of_ne_nil c (e :: es) (by simp)]
          exact ha
        rw [haw] at this
        cases this
    | cons e es =>
      rw [hY] at hd
      have hne : collapseL (e :: es) ≠ [] := collapseL_ne_nil e es
      rw [getLast?_cons_of_ne_nil ' ' _ hne] at hd
      have hcs_ne : cs ≠ [] := by
        intro hcs
        rw [hcs] at hY
        simp [List.dropWhile] at hY
      have hlast' : ∀ a, (e :: es).getLast? = some a → isWs a = false := by
        intro a ha
        apply hlast
        rw [getLast?_cons_of_ne_nil c cs hcs_ne]
        rw [← getLast?_dropWhile_of_ne_nil isWs cs (by rw [hY]; simp)]
        rw [hY]
        exact ha
      have := ih
      rw [hY] at this
      exact this hlast' d hd
  | hnot c cs h ih =>
    intro hlast d hd
    rw [collapseL_cons_not c cs h] at hd
    cases hcs : cs with
    | nil =>
      rw [hcs, collapseL_nil] at hd
      simp at hd
      rw [← hd]
      exact h
    | cons e es =>
      have hne : collapseL cs ≠ [] := by
        rw [hcs]
        exact collapseL_ne_nil e es
      rw [getLast?_cons_of_ne_nil c _ hne] at hd
      apply ih _ d hd
      intro a ha
      apply hlast
      rw [getLast?_cons_of_ne_nil c cs (by rw [hcs]; simp)]
      exact ha

/-- Collapsing preserves a non-whitespace head. -/
theorem collapseL_head_not_ws (cs : List Char)
    (h : ∀ c, cs.head? = some c → isWs c = false) :
    ∀ d, (collapseL cs).head? = some d → isWs d = false := by
  cases cs with
  | nil =>
    intro d hd
    rw [collapseL_nil] at hd
    simp at hd
  | cons c rest =>
    intro d hd
    have hc : isWs c = false := h c (by simp)
    rw [collapseL_cons_not c rest hc] at hd
    simp at hd
    rw [← hd]
    exact hc

theorem stripL_head_not_ws (cs : List Char) :
    ∀ c, (stripL cs).head? = some c → isWs c = false := by
  intro c hc
  unfold stripL at hc
  rw [List.head?_reverse] at hc
  cases hZ : ((cs.dropWhile isWs).reverse.dropWhile isWs) with
  | nil => rw [hZ] at hc; simp at hc
  | cons z zs =>
    rw [hZ] at hc
    have hzne : (z :: zs) ≠ [] := by simp
    rw [← hZ] at hc
    rw [getLast?_dropWhile_of_ne_nil isWs _ (by rw [hZ]; simp)] at hc
    rw [List.getLast?_reverse] at hc
    cases hY : cs.dropWhile isWs with
    | nil => rw [hY] at hc; simp at hc
    | cons y ys =>
      rw [hY] at hc
      simp at hc
      have := dropWhile_head_false isWs cs y ys hY
      rw [← hc]
      exact this

theorem stripL_getLast_not_ws (cs : List Char) :
    ∀ c, (stripL cs).getLast? = some c → isWs c = false := by
  intro c hc
  unfold stripL at hc
  rw [List.getLast?_reverse] at hc
  cases hZ : ((cs.dropWhile isWs).reverse.dropWhile isWs) with
  | nil => rw [hZ] at hc; simp at hc
  | cons z zs =>
    rw [hZ] at hc
    simp at hc
    have := dropWhile_head_false isWs (cs.dropWhile isWs).reverse z zs hZ
    rw [← hc]
    exact this

/-- Stripping is the identity when neither end is whitespace. -/
theorem stripL_fix (ys : List Char)
    (h1 : ∀ c, ys.head? = some c → isWs c = false)
    (h2 : ∀ c, ys.getLast? = some c → isWs c = false) :
    stripL ys = ys := by
  unfold stripL
  have hd : ys.dropWhile isWs = ys := by
    cases ys with
    | nil => simp
    | cons c cs => exact dropWhile_cons_false isWs c cs (h1 c (by simp))
  rw [hd]
  have hr : ys.reverse.dropWhile isWs = ys.reverse := by
    cases hy : ys.reverse with
    | nil => simp
    | cons c cs =>
      rw [← hy]
      have hc : isWs c = false := by
        apply h2
        rw [← List.head?_reverse, hy]
        simp
      rw [hy]
      exact dropWhile_cons_false isWs c cs hc
  rw [hr, List.reverse_reverse]

/-- The candidate normalisation of `_extract_goals` is idempotent. -/
theorem cleanGoal_idem (s : String) : cleanGoal (cleanGoal s) = cleanGoal s := by
  show (⟨collapseL (stripL (collapseL (stripL s.data)))⟩ : String) = ⟨collapseL (stripL s.data)⟩
  have hstrip : stripL (collapseL (stripL s.data)) = collapseL (stripL s.data) := by
    apply stripL_fix
    · exact collapseL_head_not_ws (stripL s.data) (stripL_head_not_ws s.data)
    · exact collapseL_getLast_not_ws (stripL s.data) (stripL_getLast_not_ws s.data)
  rw [hstrip, collapseL_fix _ (collapseL_noRun (stripL s.data))]

/-! ## Lemmas: every SMART sub-score is a multiple of one tenth in [0, 1] -/

theorem add_tenths (sc : ℚ) (z d : ℤ) (h : sc = (z : ℚ)/10) :
    sc + (d : ℚ)/10 = ((z + d : ℤ) : ℚ)/10 := by
  rw [h]
  push_cast
  ring

theorem kwFold_tenths (tl : String) (ws : List String) (d : ℚ) (zd : ℤ)
    (hd : d = (zd : ℚ)/10) :
    ∀ (sc : ℚ) (z : ℤ), sc = (z : ℚ)/10 →
      ∃ z' : ℤ, kwFold tl ws d sc = (z' : ℚ)/10 := by
  induction ws with
  | nil => intro sc z h; exact ⟨z, h⟩
  | cons w ws ih =>
    intro sc z h
    by_cases hw : strIn w tl
    · have hstep : (if strIn w tl then sc + d else sc) = ((z + zd : ℤ) : ℚ)/10 := by
        rw [if_pos hw, hd, add_tenths sc z zd h]
      exact ih _ (z + zd) (by simpa [kwFold] using hstep)
    · have hstep : (if strIn w tl then sc + d else sc) = (z : ℚ)/10 := by
        rw [if_neg hw]; exact h
      exact ih _ z (by simpa [kwFold] using hstep)

theorem patFold_tenths (text : List Char) (pats : List (List Char → Bool))
    (d : ℚ) (zd : ℤ) (hd : d = (zd : ℚ)/10) :
    ∀ (sc : ℚ) (z : ℤ), sc = (z : ℚ)/10 →
      ∃ z' : ℤ, patFold text pats d sc = (z' : ℚ)/10 := by
  induction pats with
  | nil => intro sc z h; exact ⟨z, h⟩
  | cons p ps ih =>
    intro sc z h
    by_cases hp : p text
    · have hstep : (if p text then sc + d else sc) = ((z + zd : ℤ) : ℚ)/10 := by
        rw [if_pos hp, hd, add_tenths sc z zd h]
      exact ih _ (z + zd) (by simpa [patFold] using hstep)
    · have hstep : (if p text then sc + d else sc) = (z : ℚ)/10 := by
        rw [if_neg hp]; exact h
      exact ih _ z (by simpa [patFold] using hstep)

/-- Clamping a multiple of a tenth to `[0, 1]` yields `n/10` with `n ≤ 10`. -/
theorem clamp_tenths (s : ℚ) (z : ℤ) (h : s = (z : ℚ)/10) :
    ∃ n : ℕ, n ≤ 10 ∧ min 1 (max 0 s) = (n : ℚ)/10 := by
  rcases le_or_lt s 0 with h0 | h0
  · refine ⟨0, by norm_num, ?_⟩
    rw [max_eq_left h0]
    norm_num
  · rcases le_or_lt 1 s with h1 | h1
    · refine ⟨10, le_refl 10, ?_⟩
      rw [max_eq_right (le_of_lt h0), min_eq_left h1]
      norm_num
    · have hz0 : 0 < z := by
        by_contra hc
        push_neg at hc
        have : s ≤ 0 := by
          rw [h]
          apply div_nonpos_of_nonpos_of_nonneg
          · exact_mod_cast hc
          · norm_num
        linarith
    
      have hz10 : z < 10 := by
        by_contra hc
        push_neg at hc
        have : (1 : ℚ) ≤ s := by
          rw [h]
          rw [le_div_iff₀ (by norm_num : (0:ℚ) < 10)]
          have : (10 : ℚ) ≤ (z : ℚ) := by exact_mod_cast hc
          linarith
        linarith
      refine ⟨z.toNat, ?_, ?_⟩
      · omega
      · rw [max_eq_right (le_of_lt h0), min_eq_right (le_of_lt h1), h]
        congr 1
        exact_mod_cast (Int.toNat_of_nonneg (le_of_lt hz0)).symm

theorem check_specific_tenths (g : String) :
    ∃ n : ℕ, n ≤ 10 ∧ check_specific g = (n : ℚ)/10 := by
  obtain ⟨z1, h1⟩ := kwFold_tenths (lowerStr g) specific_action_keywords 0.2 2
    (by norm_num) 0 0 (by norm_num)
  obtain ⟨z2, h2⟩ := kwFold_tenths (lowerStr g) specific_anti_keywords (-0.1) (-1)
    (by norm_num) _ z1 h1
  have h3 : ∃ z : ℤ,
      (if 20 < wordCount g then
        kwFold (lowerStr g) specific_anti_keywords (-0.1)
          (kwFold (lowerStr g) specific_action_keywords 0.2 0) + 0.2
       else
        kwFold (lowerStr g) specific_anti_keywords (-0.1)
          (kwFold (lowerStr g) specific_action_keywords 0.2 0)) = (z : ℚ)/10 := by
    by_cases hw : 20 < wordCount g
    · refine ⟨z2 + 2, ?_⟩
      rw [if_pos hw, h2]
      push_cast
      ring_nf
    · exact ⟨z2, by rw [if_neg hw]; exact h2⟩
  obtain ⟨z3, hz3⟩ := h3
  exact clamp_tenths _ z3 hz3

theorem check_measurable_tenths (g : String) :
    ∃ n : ℕ, n ≤ 10 ∧ check_measurable g = (n : ℚ)/10 := by
  obtain ⟨z1, h1⟩ := kwFold_tenths (lowerStr g) measurable_keywords 0.2 2
    (by norm_num) 0 0 (by norm_num)
  obtain ⟨z2, h2⟩ := patFold_tenths g.data
    [search_num_pct, search_decimal, search_dollar, search_duration] 0.3 3
    (by norm_num) _ z1 h1
  have h3 : ∃ z : ℤ,
      (if strIn "success criteria" (lowerStr g) || strIn "metrics" (lowerStr g) then
        patFold g.data [search_num_pct, search_decimal, search_dollar, search_duration] 0.3
          (kwFold (lowerStr g) measurable_keywords 0.2 0) + 0.3
       else
        patFold g.data [search_num_pct, search_decimal, search_dollar, search_duration] 0.3
          (kwFold (lowerStr g) measurable_keywords 0.2 0)) = (z : ℚ)/10 := by
    by_cases hw : strIn "success criteria" (lowerStr g) || strIn "metrics" (lowerStr g)
    · refine ⟨z2 + 3, ?_⟩
      rw [if_pos hw, h2]
      push_cast
      ring_nf
    · exact ⟨z2, by rw [if_neg hw]; exact h2⟩
  obtain ⟨z3, hz3⟩ := h3
  exact clamp_tenths _ z3 hz3

theorem check_achievable_tenths (g : String) :
    ∃ n : ℕ, n ≤ 10 ∧ check_achievable g = (n : ℚ)/10 := by
  obtain ⟨z1, h1⟩ := kwFold_tenths (lowerStr g) achievable_warning_keywords (-0.2) (-2)
    (by norm_num) 0.7 7 (by norm_num)
  obtain ⟨z2, h2⟩ := kwFold_tenths (lowerStr g) achievable_realistic_keywords 0.1 1
    (by norm_num) _ z1 h1
  exact clamp_tenths _ z2 h2

theorem check_relevant_tenths (g : String) :
    ∃ n : ℕ, n ≤ 10 ∧ check_relevant g = (n : ℚ)/10 := by
  obtain ⟨z1, h1⟩ := kwFold_tenths (lowerStr g) relevant_keywords 0.2 2
    (by norm_num) 0 0 (by norm_num)
  have h2 : ∃ z : ℤ,
      (if strIn "business value" (lowerStr g) || strIn "impact" (lowerStr g) then
        kwFold (lowerStr g) relevant_keywords 0.2 0 + 0.3
       else
        kwFold (lowerStr g) relevant_keywords 0.2 0) = (z : ℚ)/10 := by
    by_cases hw : strIn "business value" (lowerStr g) || strIn "impact" (lowerStr g)
    · refine ⟨z1 + 3, ?_⟩
      rw [if_pos hw, h1]
      push_cast
      ring_nf
    · exact ⟨z1, by rw [if_neg hw]; exact h1⟩
  obtain ⟨z2, h2'⟩ := h2
  obtain ⟨z3, h3⟩ := kwFold_tenths (lowerStr g) relevant_contexts 0.1 1
    (by norm_num) _ z2 h2'
  exact clamp_tenths _ z3 h3

theorem check_time_bound_tenths (g : String) :
    ∃ n : ℕ, n ≤ 10 ∧ check_time_bound g = (n : ℚ)/10 := by
  obtain ⟨z1, h1⟩ := kwFold_tenths (lowerStr g) time_bound_keywords 0.2 2
    (by norm_num) 0 0 (by norm_num)
  obtain ⟨z2, h2⟩ := patFold_tenths g.data
    [search_by_year, search_within, search_end_of] 0.4 4 (by norm_num) _ z1 h1
  have h3 : ∃ z : ℤ,
      (if strIn "pi" (lowerStr g) || strIn "program increment" (lowerStr g) then
        patFold g.data [search_by_year, search_within, search_end_of] 0.4
          (kwFold (lowerStr g) time_bound_keywords 0.2 0) + 0.3
       else
        patFold g.data [search_by_year, search_within, search_end_of] 0.4
          (kwFold (lowerStr g) time_bound_keywords 0.2 0)) = (z : ℚ)/10 := by
    by_cases hw : strIn "pi" (lowerStr g) || strIn "program increment" (lowerStr g)
    · refine ⟨z2 + 3, ?_⟩
      rw [if_pos hw, h2]
      push_cast
      ring_nf
    · exact ⟨z2, by rw [if_neg hw]; exact h2⟩
  obtain ⟨z3, hz3⟩ := h3
  exact clamp_tenths _ z3 hz3

/-! ## Helper lemmas on the analysis record -/

theorem pyInt_natCast (k : ℕ) : pyInt ((k : ℕ) : ℚ) = (k : ℤ) := by
  rw [pyInt, if_pos (by positivity)]
  exact_mod_cast Int.floor_natCast k

/-- The goals list of the validation report, unfolded. -/
theorem validate_goals_goals (text : String) :
    (validate_goals text).goals =
      (extract_goals text).enum.map (fun p => analyze_single_goal p.2 (p.1 + 1)) := rfl

/-- The recommendations of the report are the overall recommendations of its
goals list. -/
theorem validate_goals_recommendations (text : String) :
    (validate_goals text).recommendations =
      generate_overall_recommendations ((validate_goals text).goals) := rfl

/-- The number of failing SMART dimensions of an assessment. -/
def numFailedDims (a : SmartAssessment) : Nat :=
  (if a.specific then 0 else 1) + (if a.measurable then 0 else 1)
    + (if a.achievable then 0 else 1) + (if a.relevant then 0 else 1)
    + (if a.time_bound then 0 else 1)

theorem issuesOf_length (a : SmartAssessment) :
    (issuesOf a).length = numFailedDims a := by
  obtain ⟨b1, b2, b3, b4, b5⟩ := a
  cases b1 <;> cases b2 <;> cases b3 <;> cases b4 <;> cases b5 <;> rfl

theorem recsOf_length (a : SmartAssessment) :
    (recsOf a).length = (issuesOf a).length := by
  obtain ⟨b1, b2, b3, b4, b5⟩ := a
  cases b1 <;> cases b2 <;> cases b3 <;> cases b4 <;> cases b5 <;> rfl

/-- On the exact-rational idealisation the truncated accumulated score
equals the rounded scaled sum (the sum is an even integer there), and it
lies in `[0, 100]`.  The binary64 layer below shows that the program itself
deviates from this identity: under faithful float rounding the accumulated
sum need not be an integer and `int()` truncation loses to rounding. -/
theorem analyze_single_goal_score (g : String) (n : Nat) :
    (analyze_single_goal g n).smart_score =
      round (20 * (check_specific g + check_measurable g + check_achievable g
        + check_relevant g + check_time_bound g))
    ∧ 0 ≤ (analyze_single_goal g n).smart_score
    ∧ (analyze_single_goal g n).smart_score ≤ 100 := by
  obtain ⟨n1, hn1, h1⟩ := check_specific_tenths g
  obtain ⟨n2, hn2, h2⟩ := check_measurable_tenths g
  obtain ⟨n3, hn3, h3⟩ := check_achievable_tenths g
  obtain ⟨n4, hn4, h4⟩ := check_relevant_tenths g
  obtain ⟨n5, hn5, h5⟩ := check_time_bound_tenths g
  have hscore : (analyze_single_goal g n).smart_score =
      pyInt (check_specific g * 20 + check_measurable g * 20 + check_achievable g * 20
        + check_relevant g * 20 + check_time_bound g * 20) := rfl
  have hform : check_specific g * 20 + check_measurable g * 20 + check_achievable g * 20
      + check_relevant g * 20 + check_time_bound g * 20
      = ((2 * (n1 + n2 + n3 + n4 + n5) : ℕ) : ℚ) := by
    rw [h1, h2, h3, h4, h5]
    push_cast
    ring
  have hsum : 20 * (check_specific g + check_measurable g + check_achievable g
      + check_relevant g + check_time_bound g)
      = ((2 * (n1 + n2 + n3 + n4 + n5) : ℕ) : ℚ) := by
    rw [h1, h2, h3, h4, h5]
    push_cast
    ring
  refine ⟨?_, ?_, ?_⟩
  · rw [hscore, hform, pyInt_natCast, hsum]
    exact (round_natCast _).symm
  · rw [hscore, hform, pyInt_natCast]
    exact_mod_cast Nat.zero_le _
  · rw [hscore, hform, pyInt_natCast]
    have hb : 2 * (n1 + n2 + n3 + n4 + n5) ≤ 100 := by omega
    exact_mod_cast hb

/-! ## Helper lemmas for the overall recommendations -/

theorem filter_key_specific (a : SmartAssessment) :
    ((issuesOf a).filter (fun i => issueKey i == "Goal lacks specificity")).length
      = if a.specific then 0 else 1 := by
  obtain ⟨b1, b2, b3, b4, b5⟩ := a
  cases b1 <;> cases b2 <;> cases b3 <;> cases b4 <;> cases b5 <;> rfl

theorem filter_key_measurable (a : SmartAssessment) :
    ((issuesOf a).filter (fun i => issueKey i == "Goal lacks measurable success criteria")).length
      = if a.measurable then 0 else 1 := by
  obtain ⟨b1, b2, b3, b4, b5⟩ := a
  cases b1 <;> cases b2 <;> cases b3 <;> cases b4 <;> cases b5 <;> rfl

theorem filter_key_timeline (a : SmartAssessment) :
    ((issuesOf a).filter (fun i => issueKey i == "Goal lacks clear timeline")).length = 0 := by
  obtain ⟨b1, b2, b3, b4, b5⟩ := a
  cases b1 <;> cases b2 <;> cases b3 <;> cases b4 <;> cases b5 <;> rfl

theorem filter_key_relevance (a : SmartAssessment) :
    ((issuesOf a).filter (fun i => issueKey i == "Goal lacks clear business relevance")).length = 0 := by
  obtain ⟨b1, b2, b3, b4, b5⟩ := a
  cases b1 <;> cases b2 <;> cases b3 <;> cases b4 <;> cases b5 <;> rfl

/-- Counting issues under key `k` over analysed goals counts the goals whose
assessment fails the corresponding dimension. -/
theorem cnt_key_eq_fail (k : String) (proj : SmartAssessment → Bool)
    (hf : ∀ a : SmartAssessment,
      ((issuesOf a).filter (fun i => issueKey i == k)).length = if proj a then 0 else 1) :
    ∀ vs : List GoalAnalysis, (∀ v ∈ vs, v.issues = issuesOf v.smart_assessment) →
      ((vs.flatMap (fun g => g.issues)).filter (fun i => issueKey i == k)).length
        = (vs.filter (fun v => proj v.smart_assessment == false)).length := by
  intro vs
  induction vs with
  | nil => intro _; rfl
  | cons v rest ih =>
    intro hv
    have h1 : v.issues = issuesOf v.smart_assessment := hv v (by simp)
    have ihr := ih (fun u hu => hv u (by simp [hu]))
    by_cases hp : proj v.smart_assessment
    · simp only [List.flatMap_cons, List.filter_append, List.length_append, h1,
        hf v.smart_assessment, hp, if_true, List.filter_cons]
      simp [hp, ihr]
    · simp only [List.flatMap_cons, List.filter_append, List.length_append, h1,
        hf v.smart_assessment, hp, if_false, List.filter_cons]
      simp [hp, ihr]
      omega

/-- A key no analysed issue ever carries counts zero. -/
theorem cnt_key_zero (k : String)
    (hf : ∀ a : SmartAssessment,
      ((issuesOf a).filter (fun i => issueKey i == k)).length = 0) :
    ∀ vs : List GoalAnalysis, (∀ v ∈ vs, v.issues = issuesOf v.smart_assessment) →
      ((vs.flatMap (fun g => g.issues)).filter (fun i => issueKey i == k)).length = 0 := by
  intro vs
  induction vs with
  | nil => intro _; rfl
  | cons v rest ih =>
    intro hv
    have h1 : v.issues = issuesOf v.smart_assessment := hv v (by simp)
    have ihr := ih (fun u hu => hv u (by simp [hu]))
    simp only [List.flatMap_cons, List.filter_append, List.length_append, h1,
      hf v.smart_assessment, ihr]

/-- The overall recommendations of a list of analysed goals: only the
specificity and measurability branches of the source can ever fire, because
the timeline and business-relevance lookup keys differ from the issue keys
the analysis produces. -/
theorem gen_overall_of_analyzed (vs : List GoalAnalysis)
    (hv : ∀ v ∈ vs, v.issues = issuesOf v.smart_assessment) :
    generate_overall_recommendations vs =
      ((if ((vs.filter (fun v => v.smart_assessment.specific == false)).length : ℚ)
            > (vs.length : ℚ) * 0.5 then [overall_rec_specific] else [])
        ++ (if ((vs.filter (fun v => v.smart_assessment.measurable == false)).length : ℚ)
            > (vs.length : ℚ) * 0.5 then [overall_rec_measurable] else [])
        ++ general_recommendations).take 6 := by
  have e1 := cnt_key_eq_fail "Goal lacks specificity" (fun a => a.specific)
    filter_key_specific vs hv
  have e2 := cnt_key_eq_fail "Goal lacks measurable success criteria"
    (fun a => a.measurable) filter_key_measurable vs hv
  have e3 := cnt_key_zero "Goal lacks clear timeline" filter_key_timeline vs hv
  have e4 := cnt_key_zero "Goal lacks clear business relevance" filter_key_relevance vs hv
  have hno : ¬ (((0 : ℕ) : ℚ) > (vs.length : ℚ) * 0.5) := by
    push_neg
    positivity
  simp only [generate_overall_recommendations, e1, e2, e3, e4, hno, if_false,
    List.append_nil, List.nil_append]

/-! ## Spec-side reformulation of the team-assignment policy -/

/-- The spec's description of team assignment: test the six keyword sets in
declaration order, first match wins, `Backend` as the fallback. -/
def teamBySpec (feature_title : String) : String :=
  if frontend_keywords.any (fun keyword => strIn (lowerStr keyword) (lowerStr feature_title)) then
    "Frontend"
  else if backend_keywords.any (fun keyword => strIn (lowerStr keyword) (lowerStr feature_title)) then
    "Backend"
  else if devops_keywords.any (fun keyword => strIn (lowerStr keyword) (lowerStr feature_title)) then
    "DevOps"
  else if qa_keywords.any (fun keyword => strIn (lowerStr keyword) (lowerStr feature_title)) then
    "QA"
  else if data_keywords.any (fun keyword => strIn (lowerStr keyword) (lowerStr feature_title)) then
    "Data"
  else if security_keywords.any (fun keyword => strIn (lowerStr keyword) (lowerStr feature_title)) then
    "Security"
  else "Backend"

/-! ## Key-order bookkeeping for the team-assignment map -/

/-- The effect of one `addAssign` on the key list: existing keys keep their
order, a new key is appended. -/
def insertKey (ks : List String) (t : String) : List String :=
  if t ∈ ks then ks else ks ++ [t]

theorem addAssign_keys :
    ∀ (m : List (String × List String)) (t x : String),
      (addAssign m t x).map Prod.fst = insertKey (m.map Prod.fst) t := by
  intro m
  induction m with
  | nil => intro t x; simp [addAssign, insertKey]
  | cons p rest ih =>
    intro t x
    obtain ⟨k, v⟩ := p
    by_cases hk : k = t
    · simp [addAssign, hk, insertKey]
    · simp only [addAssign, if_neg hk, List.map_cons, ih]
      by_cases hmem : t ∈ rest.map Prod.fst
      · simp [insertKey, hmem, hk, Ne.symm hk]
      · simp [insertKey, hmem, hk, Ne.symm hk]

theorem foldl_addAssign_keys (fs : List Feature) :
    ∀ m : List (String × List String),
      ((fs.foldl (fun acc f => addAssign acc f.assigned_team f.title) m).map Prod.fst)
        = (fs.map (fun f => f.assigned_team)).foldl insertKey (m.map Prod.fst) := by
  induction fs with
  | nil => intro m; rfl
  | cons f rest ih =>
    intro m
    simp only [List.foldl_cons, List.map_cons]
    rw [ih (addAssign m f.assigned_team f.title), addAssign_keys]

/-- The teams of the five features of any generated epic: `'ui'` is a
substring of `"requirements"`, so the first feature goes to Frontend. -/
theorem build_epic_teams (g : GoalRec) :
    (build_epic g).features.map (fun f => f.assigned_team)
      = ["Frontend", "Backend", "Frontend", "Backend", "DevOps"] := rfl

theorem flat_features_teams (goals : List GoalRec) :
    (((goals.map build_epic).flatMap (fun e => e.features)).map (fun f => f.assigned_team))
      = goals.flatMap
          (fun _ => ["Frontend", "Backend", "Frontend", "Backend", "DevOps"]) := by
  induction goals with
  | nil => rfl
  | cons g rest ih =>
    simp only [List.map_cons, List.flatMap_cons, List.map_append, ih]
    rw [build_epic_teams]

theorem fold_insert_T5_stable (goals : List GoalRec) :
    ((goals.flatMap (fun _ => ["Frontend", "Backend", "Frontend", "Backend", "DevOps"]))
        |>.foldl insertKey ["Frontend", "Backend", "DevOps"])
      = ["Frontend", "Backend", "DevOps"] := by
  induction goals with
  | nil => rfl
  | cons g rest ih =>
    simp only [List.flatMap_cons, List.foldl_append]
    have hstep : (["Frontend", "Backend", "Frontend", "Backend", "DevOps"].foldl insertKey
        ["Frontend", "Backend", "DevOps"]) = ["Frontend", "Backend", "DevOps"] := by decide
    rw [hstep, ih]

/-- The key list of the team-assignment map for any non-empty goal list. -/
theorem generate_team_keys (goals : List GoalRec) (h : goals ≠ []) :
    (generate_epics_and_features goals).team_assignments.map Prod.fst
      = ["Frontend", "Backend", "DevOps"] := by
  have hassign : (generate_epics_and_features goals).team_assignments
      = assign_teams_to_features ((goals.map build_epic).flatMap (fun e => e.features)) := rfl
  rw [hassign]
  unfold assign_teams_to_features
  rw [foldl_addAssign_keys]
  rw [flat_features_teams]
  cases goals with
  | nil => exact absurd rfl h
  | cons g rest =>
    simp only [List.flatMap_cons, List.foldl_append, List.map_nil]
    have hfirst : (["Frontend", "Backend", "Frontend", "Backend", "DevOps"].foldl insertKey
        ([] : List String)) = ["Frontend", "Backend", "DevOps"] := by decide
    rw [hfirst, fold_insert_T5_stable]

/-! ## Binary64 semantics of the score arithmetic

The exact-rational reading of the `_check_*` scores is an idealisation:
Python floats are IEEE-754 binary64 values, so e.g. `0.7 - 0.2` evaluates
to `0.49999999999999994`, not to `1/2`.  This layer re-embeds the five
`_check_*` methods, the `smart_score` accumulation of
`_analyze_single_goal` and the overall average of `validate_goals` with
faithful binary64 arithmetic: every float value is the rational it denotes
exactly, and every arithmetic operation rounds its exact rational result to
53 significant bits, to nearest, ties to even (`fl` below).  The exponent
is not range-limited: overflow and subnormal rounding are unreachable at
the magnitudes the validator computes.  Comparisons, `min`/`max` and
`int()` act on the float values themselves and are exact, as in IEEE-754;
likewise `len(goals) * 0.5` in `_generate_overall_recommendations` is exact
(a small integer times a power of two), so the overall-recommendation
plumbing needs no second embedding. -/

/-- `2^z` as a rational, for an integer exponent. -/
def pow2 : ℤ → ℚ
  | Int.ofNat n => ((2 ^ n : ℕ) : ℚ)
  | Int.negSucc n => mkRat 1 (2 ^ (n + 1))

/-- Round a rational to the nearest integer, ties to even: the IEEE-754
default rounding, applied after scaling into the integers. -/
def rnEven (x : ℚ) : ℤ :=
  if x - ⌊x⌋ < 1/2 then ⌊x⌋
  else if 1/2 < x - ⌊x⌋ then ⌊x⌋ + 1
  else if ⌊x⌋ % 2 = 0 then ⌊x⌋ else ⌊x⌋ + 1

/-- Binade search for `1 ≤ q`: the largest `e` with `2^e ≤ q`, found by
repeated halving (fuel-bounded; fuel `1200` covers every magnitude a
binary64 value can take). -/
def exp2Up : Nat → ℚ → ℤ
  | 0, _ => 0
  | fuel + 1, q => if q < 2 then 0 else exp2Up fuel (q / 2) + 1

/-- Binade search for `0 < q < 1`: the (negative) `e` with
`2^e ≤ q < 2^(e+1)`, found by repeated doubling. -/
def exp2Down : Nat → ℚ → ℤ
  | 0, _ => 0
  | fuel + 1, q => if 1 ≤ q then 0 else exp2Down fuel (q * 2) - 1

/-- `⌊log₂ q⌋` for positive `q`. -/
def exp2Floor (q : ℚ) : ℤ :=
  if 1 ≤ q then exp2Up 1200 q else exp2Down 1200 q

/-- Round a positive rational to 53 significant bits, to nearest, ties to
even: scale into `[2^52, 2^53)`, round to an integer, scale back. -/
def flPos (q : ℚ) : ℚ :=
  (rnEven (q * pow2 (52 - exp2Floor q)) : ℚ) / pow2 (52 - exp2Floor q)

/-- IEEE-754 binary64 rounding of the exact rational value of a float
operation. -/
def fl (q : ℚ) : ℚ :=
  if q = 0 then 0 else if 0 < q then flPos q else -flPos (-q)

/-- One binary64 addition: the exact sum, rounded. -/
def flAdd (a b : ℚ) : ℚ := fl (a + b)

/-- One binary64 subtraction: the exact difference, rounded. -/
def flSub (a b : ℚ) : ℚ := fl (a - b)

/-- One binary64 multiplication: the exact product, rounded. -/
def flMul (a b : ℚ) : ℚ := fl (a * b)

/-- The binary64 value of the decimal literal `n/d`: `dlit 7 10` is the
Python float `0.7`, namely `6305039478318694/2^53`. -/
def dlit (n d : ℕ) : ℚ := fl ((n : ℚ) / (d : ℚ))

/-- One keyword loop of a `_check_*` method under binary64 arithmetic;
`step` is the loop body `score += d` or `score -= d`. -/
def kwFoldFl (text_lower : String) (ws : List String) (step : ℚ → ℚ)
    (score : ℚ) : ℚ :=
  ws.foldl (fun sc w => if strIn w text_lower then step sc else sc) score

/-- One pattern loop of a `_check_*` method under binary64 arithmetic. -/
def patFoldFl (text : List Char) (pats : List (List Char → Bool))
    (step : ℚ → ℚ) (score : ℚ) : ℚ :=
  pats.foldl (fun sc pat => if pat text then step sc else sc) score

/-- `_check_specific` under binary64 arithmetic. -/
def check_specific_fl (goal_text : String) : ℚ :=
  let text_lower := lowerStr goal_text
  let score := kwFoldFl text_lower specific_action_keywords
    (fun sc => flAdd sc (dlit 2 10)) 0
  let score := kwFoldFl text_lower specific_anti_keywords
    (fun sc => flSub sc (dlit 1 10)) score
  let score := if 20 < wordCount goal_text then flAdd score (dlit 2 10) else score
  min 1 (max 0 score)

/-- `_check_measurable` under binary64 arithmetic. -/
def check_measurable_fl (goal_text : String) : ℚ :=
  let text_lower := lowerStr goal_text
  let score := kwFoldFl text_lower measurable_keywords
    (fun sc => flAdd sc (dlit 2 10)) 0
  let score := patFoldFl goal_text.data
    [search_num_pct, search_decimal, search_dollar, search_duration]
    (fun sc => flAdd sc (dlit 3 10)) score
  let score :=
    if strIn "success criteria" text_lower || strIn "metrics" text_lower then
      flAdd score (dlit 3 10)
    else score
  min 1 (max 0 score)

/-- `_check_achievable` under binary64 arithmetic (the optimistic prior is
the float `0.7`). -/
def check_achievable_fl (goal_text : String) : ℚ :=
  let text_lower := lowerStr goal_text
  let score := kwFoldFl text_lower achievable_warning_keywords
    (fun sc => flSub sc (dlit 2 10)) (dlit 7 10)
  let score := kwFoldFl text_lower achievable_realistic_keywords
    (fun sc => flAdd sc (dlit 1 10)) score
  min 1 (max 0 score)

/-- `_check_relevant` under binary64 arithmetic. -/
def check_relevant_fl (goal_text : String) : ℚ :=
  let text_lower := lowerStr goal_text
  let score := kwFoldFl text_lower relevant_keywords
    (fun sc => flAdd sc (dlit 2 10)) 0
  let score :=
    if strIn "business value" text_lower || strIn "impact" text_lower then
      flAdd score (dlit 3 10)
    else score
  let score := kwFoldFl text_lower relevant_contexts
    (fun sc => flAdd sc (dlit 1 10)) score
  min 1 (max 0 score)

/-- `_check_time_bound` under binary64 arithmetic. -/
def check_time_bound_fl (goal_text : String) : ℚ :=
  let text_lower := lowerStr goal_text
  let score := kwFoldFl text_lower time_bound_keywords
    (fun sc => flAdd sc (dlit 2 10)) 0
  let score := patFoldFl goal_text.data
    [search_by_year, search_within, search_end_of]
    (fun sc => flAdd sc (dlit 4 10)) score
  let score :=
    if strIn "pi" text_lower || strIn "program increment" text_lower then
      flAdd score (dlit 3 10)
    else score
  min 1 (max 0 score)

/-- The `smart_score` accumulation of `_analyze_single_goal` under binary64
arithmetic: `smart_score = 0`, then `smart_score += <dim>_score * 20` five
times, each `*` and `+=` one binary64 operation (the initial int `0` and
the int `20` convert to floats exactly). -/
def smart_score_fl (g : String) : ℚ :=
  flAdd (flAdd (flAdd (flAdd (flAdd 0 (flMul (check_specific_fl g) 20))
    (flMul (check_measurable_fl g) 20)) (flMul (check_achievable_fl g) 20))
    (flMul (check_relevant_fl g) 20)) (flMul (check_time_bound_fl g) 20)

/-- `_analyze_single_goal` under binary64 score arithmetic.  The string
plumbing (title, issues, recommendations, improved version) is shared with
the idealised layer, where it is float-free; the pass thresholds compare
the float values exactly, as Python's `>` does, against the binary64 values
of the literals `0.4` and `0.3`. -/
def analyze_single_goal_fl (goal_text : String) (goal_number : Nat) : GoalAnalysis :=
  let title := extract_goal_title goal_text goal_number
  let specific_score := check_specific_fl goal_text
  let measurable_score := check_measurable_fl goal_text
  let achievable_score := check_achievable_fl goal_text
  let relevant_score := check_relevant_fl goal_text
  let time_bound_score := check_time_bound_fl goal_text
  let a : SmartAssessment :=
    { specific := decide (dlit 4 10 < specific_score)
      measurable := decide (dlit 3 10 < measurable_score)
      achievable := decide (dlit 3 10 < achievable_score)
      relevant := decide (dlit 3 10 < relevant_score)
      time_bound := decide (dlit 3 10 < time_bound_score) }
  let smart_score : ℚ :=
    flAdd (flAdd (flAdd (flAdd (flAdd 0 (flMul specific_score 20))
      (flMul measurable_score 20)) (flMul achievable_score 20))
      (flMul relevant_score 20)) (flMul time_bound_score 20)
  { title := title
    original_text := goal_text
    improved_version := generate_improved_goal goal_text a (issuesOf a)
    smart_assessment := a
    smart_score := pyInt smart_score
    issues := issuesOf a
    recommendations := recsOf a }

/-- `validate_goals` under binary64 score arithmetic: segmentation and all
string plumbing are unchanged; the overall score is
`int(total_smart_score / len(goals))`, a binary64 true division of the two
integers, truncated. -/
def validate_goals_fl (text_content : String) : ValidationReport :=
  let goals := extract_goals text_content
  let validated_goals := goals.enum.map (fun p => analyze_single_goal_fl p.2 (p.1 + 1))
  let total_smart_score : ℤ := (validated_goals.map (fun g => g.smart_score)).sum
  let overall_smart_score : ℤ :=
    if goals.isEmpty then 0
    else pyInt (fl ((total_smart_score : ℚ) / (goals.length : ℚ)))
  { original_text := text_content
    goals_count := goals.length
    goals := validated_goals
    smart_score := overall_smart_score
    quality_level := determine_quality_level overall_smart_score
    recommendations := generate_overall_recommendations validated_goals }

/-! ## Bounds for the binary64 rounding

The upper bounds below need no exactness or even correctness of the binade
search, only two one-sided facts that hold for every fuel value: for
`1 ≤ q` the search result `e` satisfies `2^e ≤ q` (so the rounding grid at
`q` is at least as fine as `2^(e-52)` with `2^e ≤ q`), and for `q < 1` it
satisfies `e ≤ 0`.  Together they bound the rounding error of `fl q` by
`max(q, 1) · 2^-53`, which the score accumulation tolerates with room to
spare. -/

theorem pow2_eq_zpow (z : ℤ) : pow2 z = (2:ℚ)^z := by
  cases z with
  | ofNat n =>
    show ((2 ^ n : ℕ) : ℚ) = (2:ℚ)^(Int.ofNat n)
    rw [Int.ofNat_eq_natCast, zpow_natCast]
    push_cast
    rfl
  | negSucc n =>
    show mkRat 1 (2 ^ (n + 1)) = (2:ℚ)^(Int.negSucc n)
    rw [Rat.mkRat_eq_div, zpow_negSucc]
    push_cast
    rw [one_div]

theorem pow2_pos (z : ℤ) : 0 < pow2 z := by
  rw [pow2_eq_zpow]
  exact zpow_pos (by norm_num) z

theorem rnEven_nonneg (x : ℚ) (h : 0 ≤ x) : 0 ≤ rnEven x := by
  have hf : (0:ℤ) ≤ ⌊x⌋ := Int.floor_nonneg.mpr h
  unfold rnEven
  split_ifs <;> omega

theorem rnEven_le_half (x : ℚ) : (rnEven x : ℚ) ≤ x + 1/2 := by
  have hle : (⌊x⌋ : ℚ) ≤ x := Int.floor_le x
  unfold rnEven
  split_ifs with h1 h2 h3 <;> push_cast <;> linarith

theorem exp2Up_zpow_le (fuel : Nat) : ∀ q : ℚ, 1 ≤ q → (2:ℚ)^(exp2Up fuel q) ≤ q := by
  induction fuel with
  | zero =>
    intro q hq
    simpa using hq
  | succ fuel ih =>
    intro q hq
    simp only [exp2Up]
    split_ifs with h
    · simpa using hq
    · have h2 : (2:ℚ) ≤ q := le_of_not_lt h
      have hq2 : 1 ≤ q / 2 := by
        rw [le_div_iff₀ (by norm_num)]
        linarith
      have hih := ih (q / 2) hq2
      rw [zpow_add_one₀ (by norm_num : (2:ℚ) ≠ 0)]
      calc (2:ℚ)^(exp2Up fuel (q/2)) * 2 ≤ (q/2) * 2 := by linarith
        _ = q := by ring

theorem exp2Down_nonpos (fuel : Nat) : ∀ q : ℚ, exp2Down fuel q ≤ 0 := by
  induction fuel with
  | zero =>
    intro q
    simp [exp2Down]
  | succ fuel ih =>
    intro q
    simp only [exp2Down]
    split_ifs
    · exact le_refl 0
    · have := ih (q * 2)
      omega

theorem exp2Floor_le_seven (q : ℚ) (h110 : q ≤ 110) : exp2Floor q ≤ 7 := by
  unfold exp2Floor
  split_ifs with h1
  · by_contra hgt
    push_neg at hgt
    have hle := exp2Up_zpow_le 1200 q h1
    have h8 : (2:ℚ)^(8:ℤ) ≤ (2:ℚ)^(exp2Up 1200 q) := by
      apply zpow_le_zpow_right₀ (by norm_num)
      omega
    have h256 : (2:ℚ)^(8:ℤ) = 256 := by
      show (2:ℚ)^((8:ℕ):ℤ) = 256
      rw [zpow_natCast]
      norm_num
    linarith
  · have := exp2Down_nonpos 1200 q
    omega

theorem fl_nonneg (q : ℚ) (h : 0 ≤ q) : 0 ≤ fl q := by
  unfold fl
  split_ifs with h0 hpos
  · exact le_refl 0
  · unfold flPos
    apply div_nonneg
    · exact_mod_cast rnEven_nonneg _ (mul_nonneg h (le_of_lt (pow2_pos _)))
    · exact le_of_lt (pow2_pos _)
  · exact absurd (lt_of_le_of_ne h (Ne.symm h0)) hpos

theorem fl_le_near (q : ℚ) (h0 : 0 ≤ q) (h110 : q ≤ 110) :
    fl q ≤ q + 1/2^40 := by
  unfold fl
  split_ifs with hz hpos
  · rw [hz]
    norm_num
  · unfold flPos
    have hep : (0:ℚ) < pow2 (52 - exp2Floor q) := pow2_pos _
    have hr := rnEven_le_half (q * pow2 (52 - exp2Floor q))
    have hdiv : (rnEven (q * pow2 (52 - exp2Floor q)) : ℚ) / pow2 (52 - exp2Floor q)
        ≤ (q * pow2 (52 - exp2Floor q) + 1/2) / pow2 (52 - exp2Floor q) := by
      gcongr
    have hsplit : (q * pow2 (52 - exp2Floor q) + 1/2) / pow2 (52 - exp2Floor q)
        = q + (1/2) / pow2 (52 - exp2Floor q) := by
      field_simp
      ring
    have he7 : exp2Floor q ≤ 7 := exp2Floor_le_seven q h110
    have h45 : (2:ℚ)^(45:ℤ) ≤ pow2 (52 - exp2Floor q) := by
      rw [pow2_eq_zpow]
      apply zpow_le_zpow_right₀ (by norm_num)
      omega
    have h45v : ((2:ℚ)^(45:ℤ)) = 35184372088832 := by
      rw [show ((45:ℤ)) = ((45:ℕ):ℤ) by norm_num, zpow_natCast]
      norm_num
    have herr : (1:ℚ)/2 / pow2 (52 - exp2Floor q) ≤ 1/2^40 := by
      have hstep : (1:ℚ)/2 / pow2 (52 - exp2Floor q) ≤ (1:ℚ)/2 / (2:ℚ)^(45:ℤ) :=
        div_le_div_of_nonneg_left (by norm_num) (by positivity) h45
      rw [h45v] at hstep
      have hval : (1:ℚ)/2/35184372088832 ≤ 1/2^40 := by norm_num
      linarith
    linarith
  · exact absurd (lt_of_le_of_ne h0 (Ne.symm hz)) hpos

theorem clamp01_mem (x : ℚ) : 0 ≤ min 1 (max 0 x) ∧ min 1 (max 0 x) ≤ 1 :=
  ⟨le_min zero_le_one (le_max_left 0 x), min_le_left 1 _⟩

theorem check_specific_fl_mem01 (g : String) :
    0 ≤ check_specific_fl g ∧ check_specific_fl g ≤ 1 := by
  unfold check_specific_fl
  exact clamp01_mem _

theorem check_measurable_fl_mem01 (g : String) :
    0 ≤ check_measurable_fl g ∧ check_measurable_fl g ≤ 1 := by
  unfold check_measurable_fl
  exact clamp01_mem _

theorem check_achievable_fl_mem01 (g : String) :
    0 ≤ check_achievable_fl g ∧ check_achievable_fl g ≤ 1 := by
  unfold check_achievable_fl
  exact clamp01_mem _

theorem check_relevant_fl_mem01 (g : String) :
    0 ≤ check_relevant_fl g ∧ check_relevant_fl g ≤ 1 := by
  unfold check_relevant_fl
  exact clamp01_mem _

theorem check_time_bound_fl_mem01 (g : String) :
    0 ≤ check_time_bound_fl g ∧ check_time_bound_fl g ≤ 1 := by
  unfold check_time_bound_fl
  exact clamp01_mem _

theorem flMul_twenty_bounds (c : ℚ) (h0 : 0 ≤ c) (h1 : c ≤ 1) :
    0 ≤ flMul c 20 ∧ flMul c 20 ≤ 20 + 1/2^40 := by
  have h20 : c * 20 ≤ 20 := by linarith
  have hn : 0 ≤ c * 20 := by
    apply mul_nonneg h0
    norm_num
  constructor
  · exact fl_nonneg _ hn
  · have := fl_le_near (c * 20) hn (by linarith)
    unfold flMul
    linarith

theorem flAdd_bounds (a b : ℚ) (h0 : 0 ≤ a + b) (h110 : a + b ≤ 110) :
    0 ≤ flAdd a b ∧ flAdd a b ≤ a + b + 1/2^40 :=
  ⟨fl_nonneg _ h0, fl_le_near _ h0 h110⟩

theorem smart_score_fl_bounds (g : String) :
    0 ≤ smart_score_fl g ∧ smart_score_fl g < 101 := by
  obtain ⟨hc1l, hc1u⟩ := check_specific_fl_mem01 g
  obtain ⟨hc2l, hc2u⟩ := check_measurable_fl_mem01 g
  obtain ⟨hc3l, hc3u⟩ := check_achievable_fl_mem01 g
  obtain ⟨hc4l, hc4u⟩ := check_relevant_fl_mem01 g
  obtain ⟨hc5l, hc5u⟩ := check_time_bound_fl_mem01 g
  obtain ⟨hm1l, hm1u⟩ := flMul_twenty_bounds _ hc1l hc1u
  obtain ⟨hm2l, hm2u⟩ := flMul_twenty_bounds _ hc2l hc2u
  obtain ⟨hm3l, hm3u⟩ := flMul_twenty_bounds _ hc3l hc3u
  obtain ⟨hm4l, hm4u⟩ := flMul_twenty_bounds _ hc4l hc4u
  obtain ⟨hm5l, hm5u⟩ := flMul_twenty_bounds _ hc5l hc5u
  have hδ : (0:ℚ) < 1/2^40 ∧ (1:ℚ)/2^40 ≤ 1/1024 := by norm_num
  obtain ⟨hδ0, hδ1⟩ := hδ
  obtain ⟨hS1l, hS1u⟩ := flAdd_bounds 0 (flMul (check_specific_fl g) 20)
    (by linarith) (by linarith)
  obtain ⟨hS2l, hS2u⟩ := flAdd_bounds (flAdd 0 (flMul (check_specific_fl g) 20))
    (flMul (check_measurable_fl g) 20) (by linarith) (by linarith)
  obtain ⟨hS3l, hS3u⟩ := flAdd_bounds
    (flAdd (flAdd 0 (flMul (check_specific_fl g) 20)) (flMul (check_measurable_fl g) 20))
    (flMul (check_achievable_fl g) 20) (by linarith) (by linarith)
  obtain ⟨hS4l, hS4u⟩ := flAdd_bounds
    (flAdd (flAdd (flAdd 0 (flMul (check_specific_fl g) 20))
        (flMul (check_measurable_fl g) 20)) (flMul (check_achievable_fl g) 20))
    (flMul (check_relevant_fl g) 20) (by linarith) (by linarith)
  obtain ⟨hS5l, hS5u⟩ := flAdd_bounds
    (flAdd (flAdd (flAdd (flAdd 0 (flMul (check_specific_fl g) 20))
        (flMul (check_measurable_fl g) 20)) (flMul (check_achievable_fl g) 20))
      (flMul (check_relevant_fl g) 20))
    (flMul (check_time_bound_fl g) 20) (by linarith) (by linarith)
  constructor
  · exact hS5l
  · unfold smart_score_fl
    linarith

theorem pyInt_mem_upto_100 (q : ℚ) (h0 : 0 ≤ q) (h1 : q < 101) :
    0 ≤ pyInt q ∧ pyInt q ≤ 100 := by
  rw [pyInt, if_pos h0]
  constructor
  · exact Int.floor_nonneg.mpr h0
  · have hlt : ⌊q⌋ < (101:ℤ) := Int.floor_lt.mpr (by exact_mod_cast h1)
    omega

/-- The goals list of the binary64-layer validation report, unfolded. -/
theorem validate_goals_fl_goals (text : String) :
    (validate_goals_fl text).goals =
      (extract_goals text).enum.map (fun p => analyze_single_goal_fl p.2 (p.1 + 1)) := rfl

/-- The per-goal score of the binary64 layer: truncation of the accumulated
float sum, an integer in `[0, 100]`. -/
theorem analyze_single_goal_fl_score (g : String) (n : Nat) :
    (analyze_single_goal_fl g n).smart_score = pyInt (smart_score_fl g)
    ∧ 0 ≤ (analyze_single_goal_fl g n).smart_score
    ∧ (analyze_single_goal_fl g n).smart_score ≤ 100 := by
  obtain ⟨h0, h1⟩ := smart_score_fl_bounds g
  obtain ⟨hl, hu⟩ := pyInt_mem_upto_100 _ h0 h1
  exact ⟨rfl, hl, hu⟩

/-! ## The claims -/

/-- C1, counterexample.  The claim says a goal whose normalised text is
exactly 20 characters long is retained.  It is not: `_extract_goals` keeps a
candidate only when `len(cleaned_goal) > 20` holds strictly, so the 20
character candidate `GOAL 1: abcdefghijkl` (already in normal form) is
extracted by the structured pattern and then discarded, leaving no goals. -/
theorem C1_twenty_char_goal_discarded :
    structured_candidates "GOAL 1: abcdefghijkl" = ["GOAL 1: abcdefghijkl"]
    ∧ cleanGoal "GOAL 1: abcdefghijkl" = "GOAL 1: abcdefghijkl"
    ∧ ("GOAL 1: abcdefghijkl" : String).length = 20
    ∧ extract_goals "GOAL 1: abcdefghijkl" = [] := by
  decide

/-- C1, amended.  Every goal returned by segmentation is in normal form
(normalising it again changes nothing) and its (normalised) length is
strictly greater than 20: a 21-character goal is retained, a 20-character
goal is discarded. -/
theorem C1_amended_goals_longer_than_20 (text : String) (g : String)
    (h : g ∈ extract_goals text) :
    20 < g.length ∧ cleanGoal g = g := by
  have h' : g ∈ (((if (structured_candidates text).isEmpty then fallback_candidates text
      else structured_candidates text).map cleanGoal).filter
        (fun g => 20 < g.length)).take 10 := h
  have h2 := List.mem_of_mem_take h'
  rw [List.mem_filter] at h2
  obtain ⟨h3, h4⟩ := h2
  obtain ⟨c, hc, rfl⟩ := List.mem_map.mp h3
  exact ⟨of_decide_eq_true h4, cleanGoal_idem c⟩

/-- C1, witness: the 21-character goal `GOAL 1: abcdefghijklm` is retained,
with the amended bound instantiated on it. -/
theorem C1_amended_goals_longer_than_20_witness :
    "GOAL 1: abcdefghijklm" ∈ extract_goals "GOAL 1: abcdefghijklm"
    ∧ (20 < ("GOAL 1: abcdefghijklm" : String).length
       ∧ cleanGoal "GOAL 1: abcdefghijklm" = "GOAL 1: abcdefghijklm") :=
  ⟨by decide,
   C1_amended_goals_longer_than_20 "GOAL 1: abcdefghijklm" "GOAL 1: abcdefghijklm" (by decide)⟩

set_option maxRecDepth 400000 in
/-- C2, counterexample.  Both goals of this document fail the time-bound and
relevance dimensions (2 of 2 is strictly more than half), yet the overall
recommendations contain neither the timeline recommendation nor the
business-relevance recommendation: the lookup keys
`Goal lacks clear timeline` and `Goal lacks clear business relevance` never
match the issue strings `... timeline or deadline` / `... relevance or
value` the analysis produces. -/
theorem C2_timeline_relevance_recs_never_added :
    ((validate_goals "GOAL 1: zzzz zzzz zzzz zzzz\n\nGOAL 2: zzzz zzzz zzzz zzzz").goals.filter
        (fun v => v.smart_assessment.time_bound == false)).length = 2
    ∧ ((validate_goals "GOAL 1: zzzz zzzz zzzz zzzz\n\nGOAL 2: zzzz zzzz zzzz zzzz").goals.filter
        (fun v => v.smart_assessment.relevant == false)).length = 2
    ∧ (validate_goals "GOAL 1: zzzz zzzz zzzz zzzz\n\nGOAL 2: zzzz zzzz zzzz zzzz").goals.length = 2
    ∧ overall_rec_timeline ∉
        (validate_goals "GOAL 1: zzzz zzzz zzzz zzzz\n\nGOAL 2: zzzz zzzz zzzz zzzz").recommendations
    ∧ overall_rec_relevance ∉
        (validate_goals "GOAL 1: zzzz zzzz zzzz zzzz\n\nGOAL 2: zzzz zzzz zzzz zzzz").recommendations
    ∧ (validate_goals "GOAL 1: zzzz zzzz zzzz zzzz\n\nGOAL 2: zzzz zzzz zzzz zzzz").recommendations
        = overall_rec_specific :: overall_rec_measurable :: general_recommendations := by
  with_unfolding_all decide

/-- C2, amended.  Of the SMART dimensions, only specificity and
measurability can contribute a targeted overall recommendation (each when
strictly more than half of the analysed goals failed that dimension); the
timeline and business-relevance branches test keys that no analysed issue
carries and the achievable dimension has no branch at all.  The fixed tail
of 4 generic recommendations is appended and the list truncated to 6. -/
theorem C2_amended_overall_recommendations (text : String) :
    (validate_goals text).recommendations =
      ((if (((validate_goals text).goals.filter
              (fun v => v.smart_assessment.specific == false)).length : ℚ)
            > ((validate_goals text).goals.length : ℚ) * 0.5 then [overall_rec_specific] else [])
        ++ (if (((validate_goals text).goals.filter
              (fun v => v.smart_assessment.measurable == false)).length : ℚ)
            > ((validate_goals text).goals.length : ℚ) * 0.5 then [overall_rec_measurable] else [])
        ++ general_recommendations).take 6 := by
  rw [validate_goals_recommendations]
  apply gen_overall_of_analyzed
  intro v hv
  rw [validate_goals_goals] at hv
  obtain ⟨p, hp, rfl⟩ := List.mem_map.mp hv
  rfl

set_option maxRecDepth 400000 in
attribute [local semireducible] Rat.add Rat.mul Rat.inv Rat.sub in
/-- C3, counterexample.  The claim says the per-goal `smart_score` equals
`round(20 × sum of the five clamped raw scores)`.  Under faithful binary64
arithmetic the goal `GOAL 1: zzzz perfect zzzz zzzz` — whose only keyword
hit is the achievability warning `perfect` — has achievable score
`0.7 - 0.2 = 0.49999999999999994 = (2^53-1)/2^54`, so the program computes
`int((0.7 - 0.2) * 20) = int(9.999999999999998) = 9`, while rounding the
exact scaled sum gives `10`. -/
theorem C3_truncation_differs_from_round :
    analyze_single_goal_fl "GOAL 1: zzzz perfect zzzz zzzz" 1
      ∈ (validate_goals_fl "GOAL 1: zzzz perfect zzzz zzzz").goals
    ∧ check_achievable_fl "GOAL 1: zzzz perfect zzzz zzzz"
        = 9007199254740991 / 18014398509481984
    ∧ (analyze_single_goal_fl "GOAL 1: zzzz perfect zzzz zzzz" 1).smart_score = 9
    ∧ round (20 * (check_specific_fl "GOAL 1: zzzz perfect zzzz zzzz"
        + check_measurable_fl "GOAL 1: zzzz perfect zzzz zzzz"
        + check_achievable_fl "GOAL 1: zzzz perfect zzzz zzzz"
        + check_relevant_fl "GOAL 1: zzzz perfect zzzz zzzz"
        + check_time_bound_fl "GOAL 1: zzzz perfect zzzz zzzz")) = 10
    ∧ (analyze_single_goal_fl "GOAL 1: zzzz perfect zzzz zzzz" 1).smart_score
        ≠ round (20 * (check_specific_fl "GOAL 1: zzzz perfect zzzz zzzz"
            + check_measurable_fl "GOAL 1: zzzz perfect zzzz zzzz"
            + check_achievable_fl "GOAL 1: zzzz perfect zzzz zzzz"
            + check_relevant_fl "GOAL 1: zzzz perfect zzzz zzzz"
            + check_time_bound_fl "GOAL 1: zzzz perfect zzzz zzzz")) := by
  decide

/-- C3, amended.  For every goal analysed by `validate_goals` the per-goal
`smart_score` equals Python's `int()` truncation of the left-to-right
binary64 accumulation of the five clamped dimension scores each multiplied
by 20 — truncation of the float sum, not rounding of the exact sum, the two
differing on reachable inputs — and it is an integer in `[0, 100]`. -/
theorem C3_amended_smart_score_truncation (text : String) (v : GoalAnalysis)
    (h : v ∈ (validate_goals_fl text).goals) :
    v.smart_score = pyInt (smart_score_fl v.original_text)
    ∧ 0 ≤ v.smart_score ∧ v.smart_score ≤ 100 := by
  rw [validate_goals_fl_goals] at h
  obtain ⟨p, hp, rfl⟩ := List.mem_map.mp h
  exact analyze_single_goal_fl_score p.2 (p.1 + 1)

set_option maxRecDepth 400000 in
attribute [local semireducible] Rat.add Rat.mul Rat.inv Rat.sub in
/-- C3 amended, witness: the `perfect` goal of the counterexample is
analysed with `smart_score = int(9.999999999999998) = 9`, which lies in
`[0, 100]`. -/
theorem C3_amended_smart_score_truncation_witness :
    analyze_single_goal_fl "GOAL 1: zzzz perfect zzzz zzzz" 1
      ∈ (validate_goals_fl "GOAL 1: zzzz perfect zzzz zzzz").goals
    ∧ ((analyze_single_goal_fl "GOAL 1: zzzz perfect zzzz zzzz" 1).smart_score
        = pyInt (smart_score_fl
            (analyze_single_goal_fl "GOAL 1: zzzz perfect zzzz zzzz" 1).original_text)
       ∧ 0 ≤ (analyze_single_goal_fl "GOAL 1: zzzz perfect zzzz zzzz" 1).smart_score
       ∧ (analyze_single_goal_fl "GOAL 1: zzzz perfect zzzz zzzz" 1).smart_score ≤ 100) :=
  ⟨by decide,
   C3_amended_smart_score_truncation "GOAL 1: zzzz perfect zzzz zzzz"
     (analyze_single_goal_fl "GOAL 1: zzzz perfect zzzz zzzz" 1)
     (by decide)⟩

/-- C4.  Team assignment is the deterministic first-match-wins policy over
the fixed declaration order Frontend, Backend, DevOps, QA, Data, Security,
with Backend as the no-match fallback; in particular a title matching both a
Frontend and a Backend keyword goes to Frontend. -/
theorem C4_team_assignment_first_match (feature_title : String) :
    suggest_team_assignment feature_title = teamBySpec feature_title := by
  unfold suggest_team_assignment teamBySpec team_categories
  by_cases h1 : frontend_keywords.any
      (fun keyword => strIn (lowerStr keyword) (lowerStr feature_title))
  · simp [List.find?, h1]
  · by_cases h2 : backend_keywords.any
        (fun keyword => strIn (lowerStr keyword) (lowerStr feature_title))
    · simp [List.find?, h1, h2]
    · by_cases h3 : devops_keywords.any
          (fun keyword => strIn (lowerStr keyword) (lowerStr feature_title))
      · simp [List.find?, h1, h2, h3]
      · by_cases h4 : qa_keywords.any
            (fun keyword => strIn (lowerStr keyword) (lowerStr feature_title))
        · simp [List.find?, h1, h2, h3, h4]
        · by_cases h5 : data_keywords.any
              (fun keyword => strIn (lowerStr keyword) (lowerStr feature_title))
          · simp [List.find?, h1, h2, h3, h4, h5]
          · by_cases h6 : security_keywords.any
                (fun keyword => strIn (lowerStr keyword) (lowerStr feature_title))
            · simp [List.find?, h1, h2, h3, h4, h5, h6]
            · simp [List.find?, h1, h2, h3, h4, h5, h6]

/-- The demo goal record of the spec's generation scenario. -/
def demo_goal : GoalRec :=
  { text := some "Build reporting dashboard", original_text := none,
    title := some "Dashboard", priority := some "High", category := some "Data" }

/-- The first feature generated for `demo_goal` (priority inherited from the
goal, team Frontend via the `ui` substring of `requirements`). -/
def demo_feature : Feature :=
  { title := "Requirements Analysis and Design",
    description := "Analyze requirements and create technical design",
    acceptance_criteria := ["Requirements documented", "Design approved"],
    priority := "High", effort_size := "M", effort_points := 3,
    assigned_team := "Frontend", status := "To Do" }

/-- Features of a generated epic take their effort points from the
size-to-points table. -/
theorem mem_features_points (g' : GoalRec) (f : Feature)
    (hf : f ∈ (build_epic g').features) :
    f.effort_points = effort_points_of f.effort_size := by
  have hf' : f ∈ (feature_templates.take 5).map (fun template =>
      ({ title := template.title, description := template.description,
         acceptance_criteria := template.acceptance_criteria,
         priority := (generate_epic_from_goal g').priority,
         effort_size := template.effort_size,
         effort_points := effort_points_of template.effort_size,
         assigned_team := suggest_team_assignment template.title,
         status := "To Do" } : Feature)) := hf
  obtain ⟨t, ht, rfl⟩ := List.mem_map.mp hf'
  rfl

/-- C5.  Every epic gets exactly the five fixed feature templates, in order,
with effort sizes M, L, M, M, S, hence `total_effort = 3+5+3+3+2 = 16`; a
single-goal generation reports 16 effort points and
`estimated_weeks = max(1, 16 // 20) = 1`. -/
theorem C5_five_features_fixed_templates (goals : List GoalRec) (g : GoalRec) :
    (∀ e ∈ (generate_epics_and_features goals).epics,
        e.features.map (fun f => f.title) =
          ["Requirements Analysis and Design", "Core Implementation",
           "User Interface Development", "Integration and Testing",
           "Documentation and Deployment"]
        ∧ e.features.map (fun f => f.effort_size) = ["M", "L", "M", "M", "S"]
        ∧ e.features.length = 5
        ∧ e.total_effort = 16)
    ∧ (generate_epics_and_features [g]).summary.total_effort_points = 16
    ∧ (generate_epics_and_features [g]).summary.estimated_weeks = 1 := by
  refine ⟨?_, rfl, by with_unfolding_all rfl⟩
  intro e he
  have he' : e ∈ goals.map build_epic := he
  obtain ⟨g', hg', rfl⟩ := List.mem_map.mp he'
  exact ⟨rfl, rfl, rfl, rfl⟩

/-- C5, witness on the spec's scenario goal. -/
theorem C5_five_features_fixed_templates_witness :
    build_epic demo_goal ∈ (generate_epics_and_features [demo_goal]).epics
    ∧ ((build_epic demo_goal).features.map (fun f => f.title) =
          ["Requirements Analysis and Design", "Core Implementation",
           "User Interface Development", "Integration and Testing",
           "Documentation and Deployment"]
        ∧ (build_epic demo_goal).features.map (fun f => f.effort_size) = ["M", "L", "M", "M", "S"]
        ∧ (build_epic demo_goal).features.length = 5
        ∧ (build_epic demo_goal).total_effort = 16)
    ∧ (generate_epics_and_features [demo_goal]).summary.total_effort_points = 16
    ∧ (generate_epics_and_features [demo_goal]).summary.estimated_weeks = 1 :=
  ⟨by decide,
   (C5_five_features_fixed_templates [demo_goal] demo_goal).1 _ (by decide),
   (C5_five_features_fixed_templates [demo_goal] demo_goal).2.1,
   (C5_five_features_fixed_templates [demo_goal] demo_goal).2.2⟩

/-- C6.  The issues list of every analysed goal has exactly one fixed entry
per failing SMART dimension, in the fixed dimension order, with a parallel
fixed recommendation per failing dimension. -/
theorem C6_issues_count_matches_failed_dims (text : String) (v : GoalAnalysis)
    (h : v ∈ (validate_goals text).goals) :
    v.issues.length = numFailedDims v.smart_assessment
    ∧ v.recommendations.length = v.issues.length
    ∧ v.issues = issuesOf v.smart_assessment
    ∧ v.recommendations = recsOf v.smart_assessment := by
  rw [validate_goals_goals] at h
  obtain ⟨p, hp, rfl⟩ := List.mem_map.mp h
  exact ⟨issuesOf_length _, recsOf_length _, rfl, rfl⟩

set_option maxRecDepth 400000 in
/-- C6, witness on a goal failing four of the five dimensions. -/
theorem C6_issues_count_matches_failed_dims_witness :
    analyze_single_goal "GOAL 1: qqqq qqqq qqqq qqqq" 1
      ∈ (validate_goals "GOAL 1: qqqq qqqq qqqq qqqq").goals
    ∧ ((analyze_single_goal "GOAL 1: qqqq qqqq qqqq qqqq" 1).issues.length
          = numFailedDims (analyze_single_goal "GOAL 1: qqqq qqqq qqqq qqqq" 1).smart_assessment
       ∧ (analyze_single_goal "GOAL 1: qqqq qqqq qqqq qqqq" 1).recommendations.length
          = (analyze_single_goal "GOAL 1: qqqq qqqq qqqq qqqq" 1).issues.length
       ∧ (analyze_single_goal "GOAL 1: qqqq qqqq qqqq qqqq" 1).issues
          = issuesOf (analyze_single_goal "GOAL 1: qqqq qqqq qqqq qqqq" 1).smart_assessment
       ∧ (analyze_single_goal "GOAL 1: qqqq qqqq qqqq qqqq" 1).recommendations
          = recsOf (analyze_single_goal "GOAL 1: qqqq qqqq qqqq qqqq" 1).smart_assessment) :=
  ⟨by with_unfolding_all decide,
   C6_issues_count_matches_failed_dims "GOAL 1: qqqq qqqq qqqq qqqq"
     (analyze_single_goal "GOAL 1: qqqq qqqq qqqq qqqq" 1) (by with_unfolding_all decide)⟩

/-- C7.  Epic rollups hold by construction: `total_effort` is the sum of the
child features' effort points and `feature_count` their number; every
feature's `effort_points` is exactly the table value of its `effort_size`,
and the table is XS=1, S=2, M=3, L=5, XL=8, XXL=13. -/
theorem C7_epic_rollups_and_effort_table (goals : List GoalRec) :
    (∀ e ∈ (generate_epics_and_features goals).epics,
        e.total_effort = (e.features.map (fun f => f.effort_points)).sum
        ∧ e.feature_count = e.features.length)
    ∧ (∀ f ∈ (generate_epics_and_features goals).features,
        f.effort_points = effort_points_of f.effort_size)
    ∧ effort_points_of "XS" = 1 ∧ effort_points_of "S" = 2
    ∧ effort_points_of "M" = 3 ∧ effort_points_of "L" = 5
    ∧ effort_points_of "XL" = 8 ∧ effort_points_of "XXL" = 13 := by
  refine ⟨?_, ?_, rfl, rfl, rfl, rfl, rfl, rfl⟩
  · intro e he
    have he' : e ∈ goals.map build_epic := he
    obtain ⟨g', hg', rfl⟩ := List.mem_map.mp he'
    exact ⟨rfl, rfl⟩
  · intro f hf
    have hf' : f ∈ (goals.map build_epic).flatMap (fun e => e.features) := hf
    obtain ⟨e, he, hfe⟩ := List.mem_flatMap.mp hf'
    obtain ⟨g', hg', rfl⟩ := List.mem_map.mp he
    exact mem_features_points g' f hfe

/-- C7, witness on the scenario goal and its first feature. -/
theorem C7_epic_rollups_and_effort_table_witness :
    build_epic demo_goal ∈ (generate_epics_and_features [demo_goal]).epics
    ∧ ((build_epic demo_goal).total_effort
          = ((build_epic demo_goal).features.map (fun f => f.effort_points)).sum
       ∧ (build_epic demo_goal).feature_count = (build_epic demo_goal).features.length)
    ∧ demo_feature ∈ (generate_epics_and_features [demo_goal]).features
    ∧ demo_feature.effort_points = effort_points_of demo_feature.effort_size :=
  ⟨by decide,
   (C7_epic_rollups_and_effort_table [demo_goal]).1 _ (by decide),
   by decide,
   (C7_epic_rollups_and_effort_table [demo_goal]).2.1 _ (by decide)⟩

/-- C8.  Generation on an empty goal list is total and returns the empty
result: no epics, no features, no team assignments, zero summary counts and
`estimated_weeks = max(1, 0 // 20) = 1`. -/
theorem C8_empty_goals_empty_result :
    generate_epics_and_features [] =
      { epics := [], features := [], team_assignments := [],
        summary := { total_epics := 0, total_features := 0, total_effort_points := 0,
                     estimated_weeks := 1, teams_involved := 0 } } := rfl

/-- C9.  Whenever segmentation yields no goals, the report still carries the
fixed four-element generic recommendation tail, with zero goals and overall
score 0. -/
theorem C9_zero_goals_recommendations (text : String)
    (h : extract_goals text = []) :
    (validate_goals text).goals_count = 0
    ∧ (validate_goals text).goals = []
    ∧ (validate_goals text).smart_score = 0
    ∧ (validate_goals text).recommendations = general_recommendations
    ∧ (validate_goals text).recommendations.length = 4 := by
  have hrep : validate_goals text =
      { original_text := text, goals_count := 0, goals := [], smart_score := 0,
        quality_level := "Very Poor", recommendations := general_recommendations } := by
    unfold validate_goals
    rw [h]
    with_unfolding_all rfl
  rw [hrep]
  exact ⟨rfl, rfl, rfl, rfl, rfl⟩

/-- C9, witness: the empty document. -/
theorem C9_zero_goals_recommendations_witness :
    extract_goals "" = []
    ∧ ((validate_goals "").goals_count = 0
       ∧ (validate_goals "").goals = []
       ∧ (validate_goals "").smart_score = 0
       ∧ (validate_goals "").recommendations = general_recommendations
       ∧ (validate_goals "").recommendations.length = 4) :=
  ⟨by decide, C9_zero_goals_recommendations "" (by decide)⟩

/-- C10, counterexample.  The claim says the first template feature
(`Requirements Analysis and Design`) defaults to Backend; in fact the
Frontend keyword `UI`, lower-cased to `ui`, occurs inside the word
`requirements`, so the feature is assigned to Frontend and the per-epic team
sequence is Frontend, Backend, Frontend, Backend, DevOps. -/
theorem C10_first_feature_frontend_not_backend :
    suggest_team_assignment "Requirements Analysis and Design" = "Frontend"
    ∧ suggest_team_assignment "Requirements Analysis and Design" ≠ "Backend"
    ∧ strIn "ui" (lowerStr "Requirements Analysis and Design") = true
    ∧ (generate_epics_and_features
        [{ text := none, original_text := none, title := none,
           priority := none, category := none }]).features.map (fun f => f.assigned_team)
        = ["Frontend", "Backend", "Frontend", "Backend", "DevOps"]
    ∧ (generate_epics_and_features
        [{ text := none, original_text := none, title := none,
           priority := none, category := none }]).features.map (fun f => f.assigned_team)
        ≠ ["Backend", "Backend", "Frontend", "Backend", "DevOps"] := by
  decide

/-- C10, amended.  Every epic's five features are assigned Frontend,
Backend, Frontend, Backend, DevOps respectively (the first via the `ui`
substring of `requirements`, the third via `interface`, the fourth via
`integration`, the fifth via `deployment`); hence for every non-empty goal
list the team-assignment map has exactly the keys Frontend, Backend, DevOps
(in first-appearance order) and `teams_involved = 3`. -/
theorem C10_amended_team_distribution (goals : List GoalRec) (h : goals ≠ []) :
    (∀ e ∈ (generate_epics_and_features goals).epics,
        e.features.map (fun f => f.assigned_team)
          = ["Frontend", "Backend", "Frontend", "Backend", "DevOps"])
    ∧ (generate_epics_and_features goals).team_assignments.map Prod.fst
        = ["Frontend", "Backend", "DevOps"]
    ∧ (generate_epics_and_features goals).summary.teams_involved = 3 := by
  refine ⟨?_, generate_team_keys goals h, ?_⟩
  · intro e he
    have he' : e ∈ goals.map build_epic := he
    obtain ⟨g', hg', rfl⟩ := List.mem_map.mp he'
    exact build_epic_teams g'
  · have hk := generate_team_keys goals h
    have hlen : (generate_epics_and_features goals).summary.teams_involved
        = ((generate_epics_and_features goals).team_assignments.map Prod.fst).length := by
      rw [List.length_map]
      rfl
    rw [hlen, hk]
    rfl

/-- C10, witness on a one-goal input. -/
theorem C10_amended_team_distribution_witness :
    ([demo_goal] ≠ ([] : List GoalRec))
    ∧ ((generate_epics_and_features [demo_goal]).team_assignments.map Prod.fst
        = ["Frontend", "Backend", "DevOps"]
       ∧ (generate_epics_and_features [demo_goal]).summary.teams_involved = 3) :=
  ⟨by simp,
   ⟨(C10_amended_team_distribution [demo_goal] (by simp)).2.1,
    (C10_amended_team_distribution [demo_goal] (by simp)).2.2⟩⟩
